import Mathlib

/-!
Verification of the Amazon Prime import pipeline of the movie-ranking
service: the CSV row parser, the TMDB catalog matcher, the in-memory
session store, and the add/skip/re-match workflow operations.

Conventions of the shallow embedding:
* Timestamps (datetime values) are integers counting seconds; the Python
  expression now - created_at > timedelta(minutes=30) becomes
  now - created_at > SESSION_TTL_MINUTES * 60.
* Python dicts are association lists with replace-or-append insertion and
  filter-based removal.
* uuid4 session-id generation is modelled by a fresh counter carried in
  the store (ids are natural numbers; freshness is an invariant).
* Database rows (movies, rankings) live in lists; the datastore id
  generator is a counter. Rat stands for float.
-/

namespace MovieRanking

/-- Lookup in a Python-style dict modelled as an association list:
returns the value of the first entry with the given key. -/
def dictGet {α β : Type} [DecidableEq α] (k : α) : List (α × β) → Option β
  | [] => none
  | (a, b) :: t => if a = k then some b else dictGet k t

/-- Removal of a key from a dict (Python dict.pop): drops every entry
carrying the key. -/
def dictErase {α β : Type} [DecidableEq α] (k : α) (d : List (α × β)) : List (α × β) :=
  d.filter (fun p => p.1 ≠ k)

/-- Assignment d[k] = v: the old binding is removed and the new one
appended. Key-value contents match the Python dict exactly; only the
iteration position of a re-assigned key differs, which no modelled
operation observes. -/
def dictInsert {α β : Type} [DecidableEq α] (k : α) (v : β) (d : List (α × β)) : List (α × β) :=
  dictErase k d ++ [(k, v)]

/-- Schema ParsedMovieItem (app/schemas/import_amazon.py): a movie parsed
from the CSV, as carried inside a MatchedMovieItem. -/
structure ParsedMovieItem where
  title : String
  watch_date : Option Int := none
  prime_image_url : Option String := none
deriving DecidableEq

/-- Schema TMDBMatchResult (app/schemas/import_amazon.py): one TMDB search
result. The TMDB service returns candidates with exactly these fields,
which the router copies over one to one, so the same structure also stands
for the service-level search results. -/
structure TMDBMatchResult where
  tmdb_id : Int
  title : String
  year : Option Int := none
  poster_url : Option String := none
  overview : Option String := none
  genre_ids : Option (List Int) := none
  vote_average : Option Rat := none
  vote_count : Option Int := none
  release_date : Option String := none
  original_language : Option String := none
deriving DecidableEq

/-- Schema MatchedMovieItem (app/schemas/import_amazon.py): one parsed
movie together with its TMDB match, review status and confidence. The
status literal is one of "pending", "added", "skipped". -/
structure MatchedMovieItem where
  parsed : ParsedMovieItem
  tmdb_match : Option TMDBMatchResult := none
  confidence : Rat := 0
  alternatives : List TMDBMatchResult := []
  status : String := "pending"
deriving DecidableEq

instance : Inhabited MatchedMovieItem :=
  ⟨{ parsed := { title := "" } }⟩

/-- Dataclass ImportSession (app/services/import_session.py). -/
structure ImportSession where
  user_id : String
  movies : List MatchedMovieItem
  created_at : Int
  current_index : Int := 0
  added_count : Int := 0
  skipped_count : Int := 0
  total_entries : Int := 0
  movies_found : Int := 0
  tv_shows_filtered : Int := 0
  already_ranked : Int := 0
deriving DecidableEq

/-- ImportSessionStore state (app/services/import_session.py): the session
map, the owner index, and the fresh-id counter standing for uuid4. -/
structure ImportSessionStore where
  sessions : List (Nat × ImportSession)
  user_sessions : List (String × Nat)
  next_id : Nat
deriving DecidableEq

def SESSION_TTL_MINUTES : Int := 30

def MAX_MOVIES_PER_SESSION : Nat := 500

/-- ImportSessionStore.create_session: replace any existing session of the
owner, truncate the movie list to the cap, store the new session under a
fresh id and index it by owner. The creation timestamp (datetime.utcnow)
is passed in as now. Returns the new session id with the new store. -/
def create_session (store : ImportSessionStore) (user_id : String)
    (movies : List MatchedMovieItem)
    (total_entries movies_found tv_shows_filtered already_ranked : Int)
    (now : Int) : Nat × ImportSessionStore :=
  let store1 :=
    match dictGet user_id store.user_sessions with
    | some old_session_id =>
        { store with sessions := dictErase old_session_id store.sessions }
    | none => store
  let session_id := store1.next_id
  let truncated_movies := movies.take MAX_MOVIES_PER_SESSION
  let sess : ImportSession :=
    { user_id := user_id, movies := truncated_movies, created_at := now,
      total_entries := total_entries, movies_found := movies_found,
      tv_shows_filtered := tv_shows_filtered, already_ranked := already_ranked }
  (session_id,
   { sessions := dictInsert session_id sess store1.sessions,
     user_sessions := dictInsert user_id session_id store1.user_sessions,
     next_id := store1.next_id + 1 })

/-- ImportSessionStore.delete_session: pop the session and, when it was
present, its owner index entry. -/
def delete_session (store : ImportSessionStore) (session_id : Nat) : ImportSessionStore :=
  match dictGet session_id store.sessions with
  | none => store
  | some session =>
      { store with sessions := dictErase session_id store.sessions,
                   user_sessions := dictErase session.user_id store.user_sessions }

/-- ImportSessionStore.get_session: ownership check, then lazy expiry
(strict TTL comparison) deleting the session as a side effect. Returns the
possibly changed store together with the result. -/
def get_session (store : ImportSessionStore) (session_id : Nat) (user_id : String)
    (now : Int) : ImportSessionStore × Option ImportSession :=
  match dictGet session_id store.sessions with
  | none => (store, none)
  | some session =>
      if session.user_id ≠ user_id then (store, none)
      else if now - session.created_at > SESSION_TTL_MINUTES * 60 then
        (delete_session store session_id, none)
      else (store, some session)

/-- One keyword argument of ImportSessionStore.update_session, tagged with
the dataclass field it addresses. -/
inductive SessionField where
  | current_index (v : Int)
  | added_count (v : Int)
  | skipped_count (v : Int)
  | movies (v : List MatchedMovieItem)
  | user_id (v : String)
  | created_at (v : Int)
  | total_entries (v : Int)
  | movies_found (v : Int)
  | tv_shows_filtered (v : Int)
  | already_ranked (v : Int)
deriving DecidableEq

/-- The keyword name of an update argument. -/
def fieldName : SessionField → String
  | .current_index _ => "current_index"
  | .added_count _ => "added_count"
  | .skipped_count _ => "skipped_count"
  | .movies _ => "movies"
  | .user_id _ => "user_id"
  | .created_at _ => "created_at"
  | .total_entries _ => "total_entries"
  | .movies_found _ => "movies_found"
  | .tv_shows_filtered _ => "tv_shows_filtered"
  | .already_ranked _ => "already_ranked"

/-- setattr(session, key, value) for one update argument. -/
def setField (s : ImportSession) : SessionField → ImportSession
  | .current_index v => { s with current_index := v }
  | .added_count v => { s with added_count := v }
  | .skipped_count v => { s with skipped_count := v }
  | .movies v => { s with movies := v }
  | .user_id v => { s with user_id := v }
  | .created_at v => { s with created_at := v }
  | .total_entries v => { s with total_entries := v }
  | .movies_found v => { s with movies_found := v }
  | .tv_shows_filtered v => { s with tv_shows_filtered := v }
  | .already_ranked v => { s with already_ranked := v }

def allowed_fields : List String :=
  ["current_index", "added_count", "skipped_count", "movies"]

/-- ImportSessionStore.update_session: same ownership and TTL check as
get_session, then apply exactly the whitelisted keyword arguments to the
stored session. The in-place mutation of the aliased session object is
modelled by writing the session back under its id. -/
def update_session (store : ImportSessionStore) (session_id : Nat) (user_id : String)
    (updates : List SessionField) (now : Int) :
    ImportSessionStore × Option ImportSession :=
  match get_session store session_id user_id now with
  | (store1, none) => (store1, none)
  | (store1, some session) =>
      let session1 := updates.foldl
        (fun s u => if fieldName u ∈ allowed_fields then setField s u else s) session
      ({ store1 with sessions := dictInsert session_id session1 store1.sessions },
       some session1)

/-- ImportSessionStore.cleanup_expired: collect every expired session id,
delete each, and report how many there were. -/
def cleanup_expired (store : ImportSessionStore) (now : Int) :
    ImportSessionStore × Nat :=
  let expired := (store.sessions.filter
    (fun p => decide (now - p.2.created_at > SESSION_TTL_MINUTES * 60))).map (·.1)
  (expired.foldl delete_session store, expired.length)

/-- ImportSessionStore.get_session_count: the size of the session map. -/
def get_session_count (store : ImportSessionStore) : Nat :=
  store.sessions.length

/-- Python str.strip (kernel-computable model over the character list). -/
def pyStrip (s : String) : String :=
  ⟨(((s.data.dropWhile Char.isWhitespace).reverse).dropWhile Char.isWhitespace).reverse⟩

/-- Python str.lower (kernel-computable model over the character list). -/
def pyLower (s : String) : String :=
  ⟨s.data.map Char.toLower⟩

/-- Python truthiness of an optional int: None and 0 are falsy. -/
def truthyInt : Option Int → Bool
  | none => false
  | some n => n ≠ 0

/-- Python truthiness of an optional string: None and the empty string are
falsy. -/
def truthyStr : Option String → Bool
  | none => false
  | some s => s ≠ ""

/-- Python truthiness of an optional list: None and the empty list are
falsy. -/
def truthyList : Option (List Int) → Bool
  | none => false
  | some l => !l.isEmpty

/-- Router helper calculate_confidence (app/routers/import_amazon.py).
The difflib SequenceMatcher ratio is kept abstract as the parameter sim
(applied, as in the source, to the lowercased titles); everything else is
the source formula: 60 percent title similarity, a year bonus of 0.4 on an
exact match and 0.2 on a one-off match guarded by Python truthiness of
both years, clamped to at most 1. -/
def calculate_confidence (sim : String → String → Rat)
    (parsed_title : String) (parsed_year : Option Int)
    (tmdb_title : String) (tmdb_year : Option Int) : Rat :=
  let score : Rat := 0
  let titleSim := sim (pyLower parsed_title) (pyLower tmdb_title)
  let score := score + titleSim * (6 / 10)
  let score :=
    if truthyInt parsed_year ∧ truthyInt tmdb_year then
      match parsed_year, tmdb_year with
      | some py, some ty =>
          if py = ty then score + 4 / 10
          else if (py - ty).natAbs = 1 then score + 2 / 10
          else score
      | _, _ => score
    else score
  min score 1

/-- The year bonus the source actually grants, factored out of
calculate_confidence: 0.4 on equality, 0.2 on a one-year difference, and 0
whenever either year is absent or zero (Python truthiness). -/
def year_bonus (parsed_year tmdb_year : Option Int) : Rat :=
  match parsed_year, tmdb_year with
  | some py, some ty =>
      if py ≠ 0 ∧ ty ≠ 0 then
        if py = ty then 4 / 10
        else if (py - ty).natAbs = 1 then 2 / 10
        else 0
      else 0
  | _, _ => 0

/-- Modelled from the spec: the confidence formula as the spec states it,
for comparison with the source function. The year bonus is 0.4 on an exact
year match, 0.2 one year off, and 0 otherwise, including when either year
is absent; nothing is said about a zero year being treated as absent. -/
def confidence_spec (sim : String → String → Rat)
    (parsed_title : String) (parsed_year : Option Int)
    (tmdb_title : String) (tmdb_year : Option Int) : Rat :=
  let bonus : Rat :=
    match parsed_year, tmdb_year with
    | some py, some ty =>
        if py = ty then 4 / 10
        else if (py - ty).natAbs = 1 then 2 / 10
        else 0
    | _, _ => 0
  min (sim (pyLower parsed_title) (pyLower tmdb_title) * (6 / 10) + bonus) 1

/-- Dataclass ParsedMovie (app/services/csv_parser.py): one CSV row that
survived filtering. -/
structure ParsedMovie where
  title : String
  watch_date : Option Int := none
  year : Option Int := none
  prime_image_url : Option String := none
deriving DecidableEq

/-- The ParsedMovieItem the router builds from a parser ParsedMovie. -/
def mkParsedItem (movie : ParsedMovie) : ParsedMovieItem :=
  { title := movie.title, watch_date := movie.watch_date,
    prime_image_url := movie.prime_image_url }

/-- The pending no-match item the matcher appends when an entry yields no
usable TMDB result. -/
def noMatchItem (movie : ParsedMovie) : MatchedMovieItem :=
  { parsed := mkParsedItem movie, tmdb_match := none, confidence := 0,
    alternatives := [], status := "pending" }

/-- Outcome of one call to TMDBService.search_movies as the matcher
observes it: a result list, a TMDBRateLimitError, or any other raised
exception. -/
inductive SearchOutcome where
  | ok (results : List TMDBMatchResult)
  | rateLimited
  | err
deriving DecidableEq

/-- One parsed entry together with the behaviour of the external catalog
on it: the outcome of the initial search (title plus year hint) and the
outcome of the plain-title retry, consulted only after a rate limit. -/
structure MatchEnv where
  movie : ParsedMovie
  first : SearchOutcome
  retry : SearchOutcome
deriving DecidableEq

/-- One iteration of the loop body of match_movies_with_tmdb
(app/routers/import_amazon.py, lines 142-305), acting on the accumulator
(matched list, already_ranked count). An exception that escapes the loop
body aborts the whole function and is signalled as an error result: this
happens exactly when the rate-limit retry raises anything other than
TMDBRateLimitError, because an exception raised inside an except block is
not caught by the sibling except Exception clause. -/
def match_step (sim : String → String → Rat) (existing_tmdb_ids : List Int)
    (env : MatchEnv) (acc : List MatchedMovieItem × Int) :
    Except Unit (List MatchedMovieItem × Int) :=
  let matched := acc.1
  let already_ranked := acc.2
  let movie := env.movie
  match env.first with
  | .ok results =>
      match results with
      | best :: rest =>
          let confidence :=
            calculate_confidence sim movie.title movie.year best.title best.year
          let item : MatchedMovieItem :=
            { parsed := mkParsedItem movie, tmdb_match := some best,
              confidence := confidence, alternatives := rest.take 2,
              status := "pending" }
          if best.tmdb_id ∈ existing_tmdb_ids then
            .ok (matched, already_ranked + 1)
          else
            .ok (matched ++ [item], already_ranked)
      | [] => .ok (matched ++ [noMatchItem movie], already_ranked)
  | .rateLimited =>
      match env.retry with
      | .ok results =>
          match results with
          | best :: _ =>
              let item : MatchedMovieItem :=
                { parsed := mkParsedItem movie, tmdb_match := some best,
                  confidence := calculate_confidence sim movie.title movie.year
                    best.title best.year,
                  alternatives := [], status := "pending" }
              if best.tmdb_id ∉ existing_tmdb_ids then
                .ok (matched ++ [item], already_ranked)
              else
                .ok (matched, already_ranked + 1)
          | [] => .ok (matched ++ [noMatchItem movie], already_ranked)
      | .rateLimited => .ok (matched ++ [noMatchItem movie], already_ranked)
      | .err => .error ()
  | .err => .ok (matched ++ [noMatchItem movie], already_ranked)

/-- Router match_movies_with_tmdb: fold the loop body over the parsed
entries, each paired with the catalog behaviour it will observe, threading
the accumulator; the pacing sleeps have no state effect and are elided. -/
def match_movies_with_tmdb (sim : String → String → Rat)
    (existing_tmdb_ids : List Int) :
    List MatchEnv → List MatchedMovieItem × Int →
    Except Unit (List MatchedMovieItem × Int)
  | [], acc => .ok acc
  | env :: rest, acc =>
      match match_step sim existing_tmdb_ids env acc with
      | .ok acc1 => match_movies_with_tmdb sim existing_tmdb_ids rest acc1
      | .error e => .error e

/-- One csv.DictReader row as parse_amazon_prime_csv reads it. Each field
holds what row.get returns before stripping: some s for a string cell,
none for a None cell (a row shorter than the header, where DictReader
fills missing keys with None and a later .strip() raises). A key missing
from the header altogether comes back as the get default, that is some ""
for type, title and image_url and none for date_watched. -/
structure CsvRow where
  type : Option String
  title : Option String
  date_watched : Option String
  image_url : Option String
deriving DecidableEq

/-- Dataclass ParseResult (app/services/csv_parser.py). -/
structure ParseResult where
  movies : List ParsedMovie
  total_entries : Int
  movies_found : Int
  tv_shows_filtered : Int
  parse_errors : Int
deriving DecidableEq

/-- Accumulator of the row loop of parse_amazon_prime_csv. -/
structure ParseAcc where
  movies : List ParsedMovie
  total_entries : Int
  tv_shows_filtered : Int
  parse_errors : Int
deriving DecidableEq

/-- The row loop body of parse_amazon_prime_csv (app/services/csv_parser.py,
lines 172-206). Date parsing never raises and never affects the counters,
so parse_date is kept abstract as the parameter pd returning the
(watch_date, year) pair; every claim proved below holds for every pd. A
None cell hit by .strip() raises AttributeError, which the per-row except
turns into a parse error. The title emptiness test precedes the type
filter, exactly as in the source. -/
def process_row (pd : Option String → Option Int × Option Int)
    (acc : ParseAcc) (row : CsvRow) : ParseAcc :=
  let acc := { acc with total_entries := acc.total_entries + 1 }
  match row.type with
  | none => { acc with parse_errors := acc.parse_errors + 1 }
  | some ty =>
      match row.title with
      | none => { acc with parse_errors := acc.parse_errors + 1 }
      | some ti =>
          let content_type := pyStrip ty
          let title := pyStrip ti
          if title = "" then
            { acc with parse_errors := acc.parse_errors + 1 }
          else if pyLower content_type ≠ "movie" then
            { acc with tv_shows_filtered := acc.tv_shows_filtered + 1 }
          else
            let wy := pd row.date_watched
            match row.image_url with
            | none => { acc with parse_errors := acc.parse_errors + 1 }
            | some iu =>
                let image_url := if pyStrip iu = "" then none else some (pyStrip iu)
                let movie : ParsedMovie :=
                  { title := title, watch_date := wy.1, year := wy.2,
                    prime_image_url := image_url }
                { acc with movies := acc.movies ++ [movie] }

/-- The data-row phase of parse_amazon_prime_csv, after decoding and
header validation succeeded: fold the row loop and assemble the
ParseResult, with movies_found the number of emitted movies. -/
def parse_amazon_prime_csv_rows (pd : Option String → Option Int × Option Int)
    (rows : List CsvRow) : ParseResult :=
  let acc := rows.foldl (process_row pd) ⟨[], 0, 0, 0⟩
  { movies := acc.movies, total_entries := acc.total_entries,
    movies_found := acc.movies.length,
    tv_shows_filtered := acc.tv_shows_filtered,
    parse_errors := acc.parse_errors }

/-- Model Movie (app/models/movie.py), the datastore row the import
workflow reads and writes. Database-generated ids are naturals from a
counter; calendar dates are abstracted as their strings. -/
structure Movie where
  id : Nat
  tmdb_id : Int
  title : String
  year : Option Int := none
  poster_url : Option String := none
  genre_ids : Option (List Int) := none
  vote_average : Option Rat := none
  vote_count : Option Int := none
  release_date : Option String := none
  original_language : Option String := none
  runtime : Option Int := none
deriving DecidableEq

/-- Model Ranking (app/models/ranking.py) restricted to the fields that
the workflow touches; (user_id, movie_id) is unique in the store. -/
structure Ranking where
  user_id : String
  movie_id : Nat
  rating : Int
  rated_at : Int
deriving DecidableEq

/-- The relational datastore as the workflow sees it: the movies and
rankings tables plus the id generator for new movies. -/
structure Database where
  movies : List Movie
  rankings : List Ranking
  next_movie_id : Nat
deriving DecidableEq

/-- Router helper parse_release_date: None and the empty string give None
(Python truthiness); otherwise the date string is kept, abstracting the
date.fromisoformat value as the string itself. -/
def parse_release_date : Option String → Option String
  | none => none
  | some s => if s = "" then none else some s

/-- Router helper to_naive_utc: timestamps in the model are already naive
UTC integers, so the timezone normalisation is the identity. -/
def to_naive_utc (dt : Option Int) : Option Int := dt

/-- Schema ImportMovieAddRequest: rating 1-5 and an optional explicit
rated_at timestamp. -/
structure ImportMovieAddRequest where
  rating : Int
  rated_at : Option Int := none
deriving DecidableEq

/-- Schema ImportMovieMatchRequest: the full TMDB candidate supplied by
the user for a re-match. -/
structure ImportMovieMatchRequest where
  tmdb_id : Int
  title : String
  year : Option Int := none
  poster_url : Option String := none
  overview : Option String := none
  genre_ids : Option (List Int) := none
  vote_average : Option Rat := none
  vote_count : Option Int := none
  release_date : Option String := none
  original_language : Option String := none
deriving DecidableEq

/-- HTTP-level errors the workflow endpoints raise: 404 not-found and 400
bad-request (the conflict / invalid-state class), each with its detail
message. -/
inductive ApiError where
  | notFound (detail : String)
  | badRequest (detail : String)
deriving DecidableEq

/-- Backfill step for genre_ids (line 540): fill when missing on the
movie and truthy on the match. -/
def backfill_genre (m : Movie) (tm : TMDBMatchResult) : Movie :=
  if m.genre_ids = none ∧ truthyList tm.genre_ids then
    { m with genre_ids := tm.genre_ids } else m

/-- Backfill step for vote_average (line 543): the source tests is-not-None
here, not truthiness. -/
def backfill_vote_average (m : Movie) (tm : TMDBMatchResult) : Movie :=
  if m.vote_average = none ∧ tm.vote_average ≠ none then
    { m with vote_average := tm.vote_average } else m

/-- Backfill step for vote_count (line 546). -/
def backfill_vote_count (m : Movie) (tm : TMDBMatchResult) : Movie :=
  if m.vote_count = none ∧ tm.vote_count ≠ none then
    { m with vote_count := tm.vote_count } else m

/-- Backfill step for release_date (line 549), truthiness on the match
string. -/
def backfill_release_date (m : Movie) (tm : TMDBMatchResult) : Movie :=
  if m.release_date = none ∧ truthyStr tm.release_date then
    { m with release_date := parse_release_date tm.release_date } else m

/-- Backfill step for original_language (line 552). -/
def backfill_language (m : Movie) (tm : TMDBMatchResult) : Movie :=
  if m.original_language = none ∧ truthyStr tm.original_language then
    { m with original_language := tm.original_language } else m

/-- Backfill step for runtime (line 555): when missing, fetch details
(outcome injected; a raised fetch is tolerated) and keep a truthy
runtime. -/
def backfill_runtime (m : Movie) (details : Except Unit (Option Int)) : Movie :=
  if m.runtime = none then
    match details with
    | .ok r => if truthyInt r then { m with runtime := r } else m
    | .error _ => m
  else m

/-- The movie backfill block of add_import_movie (lines 538-566): fill
each metadata field that is missing on the stored movie and present
(truthy, where the source tests truthiness) on the match; when runtime is
missing, fetch details and keep a truthy runtime. The source runs the six
if-statements in this order on the same mutable row. -/
def backfill_movie (movie : Movie) (tm : TMDBMatchResult)
    (details : Except Unit (Option Int)) : Movie :=
  backfill_runtime
    (backfill_language
      (backfill_release_date
        (backfill_vote_count
          (backfill_vote_average
            (backfill_genre movie tm) tm) tm) tm) tm) details

/-- The get-or-create block of add_import_movie (lines 507-566): look the
movie up by TMDB id; when absent, create it with the match metadata and
the runtime from the details fetch (a failed fetch leaves runtime None);
when present, backfill missing metadata. Returns the new database and the
resolved movie row. -/
def get_or_create_movie (db : Database) (tm : TMDBMatchResult)
    (details : Except Unit (Option Int)) : Database × Movie :=
  match db.movies.find? (fun m => m.tmdb_id = tm.tmdb_id) with
  | none =>
      let runtime : Option Int :=
        match details with
        | .ok r => r
        | .error _ => none
      let movie : Movie :=
        { id := db.next_movie_id, tmdb_id := tm.tmdb_id,
          title := tm.title, year := tm.year,
          poster_url := tm.poster_url, genre_ids := tm.genre_ids,
          vote_average := tm.vote_average, vote_count := tm.vote_count,
          release_date := parse_release_date tm.release_date,
          original_language := tm.original_language,
          runtime := runtime }
      ({ db with
          movies := db.movies ++ [movie],
          next_movie_id := db.next_movie_id + 1 }, movie)
  | some movie =>
      let movie1 := backfill_movie movie tm details
      ({ db with
          movies := db.movies.map
            (fun (m : Movie) => if m.id = movie.id then movie1 else m) },
       movie1)

/-- The rated_at resolution of add_import_movie (lines 568-573): request
value first, then the watch date of the parsed entry (datetime objects are
always truthy), then the current time. -/
def resolve_rated_at (req : ImportMovieAddRequest) (parsed : ParsedMovieItem)
    (now : Int) : Int :=
  match to_naive_utc req.rated_at with
  | some r => r
  | none =>
      match parsed.watch_date with
      | some w =>
          match to_naive_utc (some w) with
          | some w1 => w1
          | none => now
      | none => now

/-- The rating upsert of add_import_movie (lines 575-601): update the
existing (user, movie) ranking in place when present, otherwise create a
new one. Returns the new database and the resulting ranking. -/
def upsert_ranking (db : Database) (current_user : String) (movie_id : Nat)
    (rating : Int) (rated_at : Int) : Database × Ranking :=
  match db.rankings.find? (fun (r : Ranking) =>
      decide (r.user_id = current_user ∧ r.movie_id = movie_id)) with
  | some existing =>
      let updated :=
        { existing with rating := rating, rated_at := rated_at }
      ({ db with
          rankings := db.rankings.map (fun (r : Ranking) =>
            if r.user_id = current_user ∧ r.movie_id = movie_id then
              updated else r) },
       updated)
  | none =>
      let ranking : Ranking :=
        { user_id := current_user, movie_id := movie_id,
          rating := rating, rated_at := rated_at }
      ({ db with rankings := db.rankings ++ [ranking] }, ranking)

/-- Endpoint add_import_movie (app/routers/import_amazon.py, lines
453-608): session lookup, index bound check, pending and match
preconditions, get-or-create of the movie (the TMDB details fetch outcome
is injected as details; a failed fetch is tolerated), rated_at resolution
(request value, then watch date, then now), the (user, movie) rating
upsert, and the session mutation to added. Returns the new store, the new
database and the HTTP result. -/
def add_import_movie (store : ImportSessionStore) (db : Database)
    (session_id : Nat) (index : Int) (req : ImportMovieAddRequest)
    (current_user : String) (now : Int) (details : Except Unit (Option Int)) :
    ImportSessionStore × Database × Except ApiError Ranking :=
  match get_session store session_id current_user now with
  | (store1, none) =>
      (store1, db, .error (.notFound "Import session not found or expired"))
  | (store1, some session) =>
      if index < 0 ∨ (session.movies.length : Int) ≤ index then
        (store1, db, .error (.notFound "Movie index out of range"))
      else
        let movie_data := session.movies.getD index.toNat default
        if movie_data.status ≠ "pending" then
          (store1, db, .error (.badRequest "Movie has already been processed"))
        else
          match movie_data.tmdb_match with
          | none =>
              (store1, db, .error (.badRequest "Cannot add movie without TMDB match"))
          | some tm =>
              let dbAndMovie := get_or_create_movie db tm details
              let db1 := dbAndMovie.1
              let movie := dbAndMovie.2
              let rated_at := resolve_rated_at req movie_data.parsed now
              let dbAndRanking :=
                upsert_ranking db1 current_user movie.id req.rating rated_at
              let db2 := dbAndRanking.1
              let ranking := dbAndRanking.2
              let session1 :=
                { session with
                    movies := session.movies.set index.toNat
                      { movie_data with status := "added" },
                    added_count := session.added_count + 1,
                    current_index := index + 1 }
              let store2 :=
                { store1 with sessions := dictInsert session_id session1 store1.sessions }
              (store2, db2, .ok ranking)

/-- Endpoint skip_import_movie (lines 622-663): session lookup, index
bound check, pending precondition, then mark the item skipped, bump the
skip counter and advance the cursor. -/
def skip_import_movie (store : ImportSessionStore) (session_id : Nat)
    (index : Int) (current_user : String) (now : Int) :
    ImportSessionStore × Except ApiError Unit :=
  match get_session store session_id current_user now with
  | (store1, none) =>
      (store1, .error (.notFound "Import session not found or expired"))
  | (store1, some session) =>
      if index < 0 ∨ (session.movies.length : Int) ≤ index then
        (store1, .error (.notFound "Movie index out of range"))
      else
        let movie_data := session.movies.getD index.toNat default
        if movie_data.status ≠ "pending" then
          (store1, .error (.badRequest "Movie has already been processed"))
        else
          let session1 :=
            { session with
                movies := session.movies.set index.toNat
                  { movie_data with status := "skipped" },
                skipped_count := session.skipped_count + 1,
                current_index := index + 1 }
          ({ store1 with sessions := dictInsert session_id session1 store1.sessions },
           .ok ())

/-- The TMDBMatchResult stored by the re-match endpoint, copied field by
field from the request. -/
def matchOfRequest (req : ImportMovieMatchRequest) : TMDBMatchResult :=
  { tmdb_id := req.tmdb_id, title := req.title, year := req.year,
    poster_url := req.poster_url, overview := req.overview,
    genre_ids := req.genre_ids, vote_average := req.vote_average,
    vote_count := req.vote_count, release_date := req.release_date,
    original_language := req.original_language }

/-- Endpoint update_import_movie_match (lines 676-731): session lookup and
index bound check, then unconditionally replace the item match with the
supplied candidate, set confidence to 1.0, clear the alternatives and
leave the status field untouched. The source performs no status check. -/
def update_import_movie_match (store : ImportSessionStore) (session_id : Nat)
    (index : Int) (req : ImportMovieMatchRequest) (current_user : String)
    (now : Int) : ImportSessionStore × Except ApiError MatchedMovieItem :=
  match get_session store session_id current_user now with
  | (store1, none) =>
      (store1, .error (.notFound "Import session not found or expired"))
  | (store1, some session) =>
      if index < 0 ∨ (session.movies.length : Int) ≤ index then
        (store1, .error (.notFound "Movie index out of range"))
      else
        let old := session.movies.getD index.toNat default
        let item :=
          { old with
              tmdb_match := some (matchOfRequest req),
              confidence := 1, alternatives := [] }
        let session1 :=
          { session with movies := session.movies.set index.toNat item }
        ({ store1 with sessions := dictInsert session_id session1 store1.sessions },
         .ok item)

/-- The per-entry outcome of one matcher iteration, factored out of
match_step: error when the loop body raises (rate-limited retry raising a
non-rate-limit error), ok none when the entry is dropped as already
ranked, ok (some item) when an item is appended. -/
def step_result (sim : String → String → Rat) (existing_tmdb_ids : List Int)
    (env : MatchEnv) : Except Unit (Option MatchedMovieItem) :=
  let movie := env.movie
  match env.first with
  | .ok results =>
      match results with
      | best :: rest =>
          let confidence :=
            calculate_confidence sim movie.title movie.year best.title best.year
          let item : MatchedMovieItem :=
            { parsed := mkParsedItem movie, tmdb_match := some best,
              confidence := confidence, alternatives := rest.take 2,
              status := "pending" }
          if best.tmdb_id ∈ existing_tmdb_ids then .ok none else .ok (some item)
      | [] => .ok (some (noMatchItem movie))
  | .rateLimited =>
      match env.retry with
      | .ok results =>
          match results with
          | best :: _ =>
              let item : MatchedMovieItem :=
                { parsed := mkParsedItem movie, tmdb_match := some best,
                  confidence := calculate_confidence sim movie.title movie.year
                    best.title best.year,
                  alternatives := [], status := "pending" }
              if best.tmdb_id ∉ existing_tmdb_ids then .ok (some item) else .ok none
          | [] => .ok (some (noMatchItem movie))
      | .rateLimited => .ok (some (noMatchItem movie))
      | .err => .error ()
  | .err => .ok (some (noMatchItem movie))

/-- True when the matcher drops the entry as already ranked. -/
def entry_removed (sim : String → String → Rat) (existing_tmdb_ids : List Int)
    (env : MatchEnv) : Bool :=
  match step_result sim existing_tmdb_ids env with
  | .ok none => true
  | _ => false

/-- The item the matcher emits for an entry, when it emits one. -/
def step_item (sim : String → String → Rat) (existing_tmdb_ids : List Int)
    (env : MatchEnv) : Option MatchedMovieItem :=
  match step_result sim existing_tmdb_ids env with
  | .ok (some item) => some item
  | _ => none

/-- True exactly when the row loop counts the row as a parse error: a None
cell hit by .strip(), or an empty stripped title. -/
def row_is_error (row : CsvRow) : Bool :=
  match row.type, row.title with
  | none, _ => true
  | some _, none => true
  | some ty, some ti =>
      if pyStrip ti = "" then true
      else if pyLower (pyStrip ty) ≠ "movie" then false
      else
        match row.image_url with
        | none => true
        | some _ => false

/-- True exactly when the row loop counts the row as a filtered TV entry:
a non-empty title with a type other than movie. -/
def row_is_tv (row : CsvRow) : Bool :=
  match row.type, row.title with
  | some ty, some ti => pyStrip ti ≠ "" && pyLower (pyStrip ty) ≠ "movie"
  | _, _ => false

/-- The ParsedMovie the row loop emits for the row, when it emits one. -/
def row_movie (pd : Option String → Option Int × Option Int)
    (row : CsvRow) : Option ParsedMovie :=
  match row.type, row.title with
  | some ty, some ti =>
      if pyStrip ti = "" then none
      else if pyLower (pyStrip ty) ≠ "movie" then none
      else
        match row.image_url with
        | none => none
        | some iu =>
            some { title := pyStrip ti, watch_date := (pd row.date_watched).1,
                   year := (pd row.date_watched).2,
                   prime_image_url := if pyStrip iu = "" then none
                     else some (pyStrip iu) }
  | _, _ => none

/-- One public operation of the session store, for reasoning about
arbitrary interleavings after a point of interest. -/
inductive StoreOp where
  | createOp (user_id : String) (movies : List MatchedMovieItem)
      (total_entries movies_found tv_shows_filtered already_ranked now : Int)
  | getOp (session_id : Nat) (user_id : String) (now : Int)
  | updateOp (session_id : Nat) (user_id : String)
      (updates : List SessionField) (now : Int)
  | deleteOp (session_id : Nat)
  | cleanupOp (now : Int)

/-- The store reached by one operation. -/
def apply_op (store : ImportSessionStore) : StoreOp → ImportSessionStore
  | .createOp uid movies te mf tv ar now =>
      (create_session store uid movies te mf tv ar now).2
  | .getOp sid uid now => (get_session store sid uid now).1
  | .updateOp sid uid upd now => (update_session store sid uid upd now).1
  | .deleteOp sid => delete_session store sid
  | .cleanupOp now => (cleanup_expired store now).1

/-- The store reached by a sequence of operations. -/
def run_ops (ops : List StoreOp) (store : ImportSessionStore) : ImportSessionStore :=
  ops.foldl apply_op store

/-- Well-formedness of a store state, established at creation and
preserved by every operation: session keys are distinct, owner-index keys
are distinct, every session is indexed by its owner, and every session id
and every indexed id is below the fresh-id counter. -/
def StoreWF (s : ImportSessionStore) : Prop :=
  (s.sessions.map Prod.fst).Nodup ∧
  (s.user_sessions.map Prod.fst).Nodup ∧
  (∀ p ∈ s.sessions, dictGet p.2.user_id s.user_sessions = some p.1) ∧
  (∀ p ∈ s.sessions, p.1 < s.next_id) ∧
  (∀ q ∈ s.user_sessions, q.2 < s.next_id)

/-- No two distinct sessions in the store belong to the same owner. -/
def OwnersUnique (s : ImportSessionStore) : Prop :=
  ∀ p ∈ s.sessions, ∀ q ∈ s.sessions, p.2.user_id = q.2.user_id → p.1 = q.1

/-- Datastore invariants used for the rating-uniqueness argument: movie
primary keys are distinct and the (user_id, movie_id) pair is unique
across rankings, both enforced by the relational store. -/
def DbWF (db : Database) : Prop :=
  (db.movies.map (fun m => m.id)).Nodup ∧
  db.rankings.Pairwise
    (fun r1 r2 => ¬(r1.user_id = r2.user_id ∧ r1.movie_id = r2.movie_id))

/-- The number of stored ratings for one (owner, movie) pair. -/
def countRatings (db : Database) (uid : String) (mid : Nat) : Nat :=
  (db.rankings.filter
    (fun r => decide (r.user_id = uid ∧ r.movie_id = mid))).length

/-- The datastore id of the movie carrying a TMDB id, as
add_import_movie resolves it (first match). -/
def movieIdForTmdb (db : Database) (t : Int) : Option Nat :=
  (db.movies.find? (fun m => decide (m.tmdb_id = t))).map (fun m => m.id)

/-- The arguments of one repeated add call: its wall-clock time, request
body and injected details outcome. -/
structure AddCall where
  now : Int
  req : ImportMovieAddRequest
  details : Except Unit (Option Int)

/-- A sequence of add calls against the same session item, threading store
and database; the HTTP results are discarded. -/
def add_many (session_id : Nat) (index : Int) (current_user : String)
    (calls : List AddCall) (sd : ImportSessionStore × Database) :
    ImportSessionStore × Database :=
  calls.foldl (fun sd c =>
    let r := add_import_movie sd.1 sd.2 session_id index c.req current_user
      c.now c.details
    (r.1, r.2.1)) sd

/-- Fixture: an already-expired session owned by "owner". -/
def sessExpired : ImportSession :=
  { user_id := "owner", movies := [], created_at := 0 }

/-- Fixture: a store holding only the expired session. -/
def storeExpired : ImportSessionStore :=
  { sessions := [(0, sessExpired)], user_sessions := [("owner", 0)], next_id := 1 }

/-- Fixture: the TMDB match of an already-processed item. -/
def tmProcessed : TMDBMatchResult := { tmdb_id := 100, title := "Old Movie" }

/-- Fixture: a session item that was already added. -/
def itemAdded : MatchedMovieItem :=
  { parsed := { title := "A" }, tmdb_match := some tmProcessed, confidence := 1,
    alternatives := [], status := "added" }

/-- Fixture: a live session of user "u" holding only the added item. -/
def sessAdded : ImportSession :=
  { user_id := "u", movies := [itemAdded], created_at := 0 }

/-- Fixture: a store holding only sessAdded. -/
def storeAdded : ImportSessionStore :=
  { sessions := [(0, sessAdded)], user_sessions := [("u", 0)], next_id := 1 }

/-- Fixture: a re-match request supplying a different movie. -/
def reqNewMatch : ImportMovieMatchRequest := { tmdb_id := 999, title := "New Movie" }

/-- Fixture: a TV-type row with an empty title. -/
def rowTVEmpty : CsvRow :=
  { type := some "TV Show", title := some "", date_watched := none,
    image_url := some "" }

/-- Fixture: a date parser that never parses anything (the counters do not
depend on it). -/
def pdNone : Option String → Option Int × Option Int := fun _ => (none, none)

/-- Fixture: an entry whose searches both succeed with no results. -/
def envFine : MatchEnv := ⟨{ title := "B" }, .ok [], .ok []⟩

/-- Fixture: an entry that is rate-limited and whose retry raises a
non-rate-limit error. -/
def envAbort : MatchEnv := ⟨{ title := "A" }, .rateLimited, .err⟩

/-- Fixture: an entry whose initial search raises an unexpected error. -/
def envErrFirst : MatchEnv := ⟨{ title := "C" }, .err, .ok []⟩

/-- Fixture: a TMDB result with id 7. -/
def tmSeven : TMDBMatchResult := { tmdb_id := 7, title := "Seven" }

/-- Fixture: an entry whose best match is already ranked (id 7). -/
def envRemoved : MatchEnv := ⟨{ title := "D" }, .ok [tmSeven], .ok []⟩

/-- Fixture: a constant similarity function. -/
def simZero : String → String → Rat := fun _ _ => 0

/-- Fixture: a TMDB match for the pending item. -/
def tmPending : TMDBMatchResult := { tmdb_id := 42, title := "The Answer" }

/-- Fixture: a pending session item with a resolved match. -/
def itemPending : MatchedMovieItem :=
  { parsed := { title := "The Answer" }, tmdb_match := some tmPending,
    confidence := 1, alternatives := [], status := "pending" }

/-- Fixture: a live session of user "w" holding only the pending item. -/
def sessPending : ImportSession :=
  { user_id := "w", movies := [itemPending], created_at := 0 }

/-- Fixture: a store holding only sessPending under id 3. -/
def storePending : ImportSessionStore :=
  { sessions := [(3, sessPending)], user_sessions := [("w", 3)], next_id := 4 }

/-- Fixture: an empty datastore. -/
def dbEmpty : Database := { movies := [], rankings := [], next_movie_id := 0 }

/-- Fixture: a five-star add request without explicit rated_at. -/
def reqAdd : ImportMovieAddRequest := { rating := 5 }

theorem dictGet_append {α β : Type} [DecidableEq α] (k : α) (d e : List (α × β)) :
    dictGet k (d ++ e) = ((dictGet k d).rec (dictGet k e) fun b => some b) := by
  induction d with
  | nil => rfl
  | cons p t ih =>
    obtain ⟨a, b⟩ := p
    by_cases h : a = k <;> simp [dictGet, h, ih]

theorem dictGet_erase_self {α β : Type} [DecidableEq α] (k : α) (d : List (α × β)) :
    dictGet k (dictErase k d) = none := by
  induction d with
  | nil => rfl
  | cons p t ih =>
    obtain ⟨a, b⟩ := p
    by_cases h : a = k <;> simp [dictErase, dictGet, h] at ih ⊢ <;> simpa [dictErase] using ih

theorem dictGet_erase_ne {α β : Type} [DecidableEq α] {k j : α} (h : j ≠ k) (d : List (α × β)) :
    dictGet j (dictErase k d) = dictGet j d := by
  induction d with
  | nil => rfl
  | cons p t ih =>
    obtain ⟨a, b⟩ := p
    by_cases hak : a = k
    · subst hak
      simp [dictErase, dictGet, Ne.symm h] at ih ⊢
      simpa [dictErase] using ih
    · by_cases haj : a = j
      · subst haj
        simp [dictErase, dictGet, hak]
      · simp [dictErase, dictGet, hak, haj] at ih ⊢
        simpa [dictErase] using ih

theorem dictGet_insert_self {α β : Type} [DecidableEq α] (k : α) (v : β) (d : List (α × β)) :
    dictGet k (dictInsert k v d) = some v := by
  simp [dictInsert, dictGet_append, dictGet_erase_self, dictGet]

theorem dictGet_insert_ne {α β : Type} [DecidableEq α] {k j : α} (h : j ≠ k) (v : β)
    (d : List (α × β)) :
    dictGet j (dictInsert k v d) = dictGet j d := by
  simp [dictInsert, dictGet_append, dictGet_erase_ne h, dictGet, Ne.symm h]
  cases hj : dictGet j d <;> simp

/-- create_session in closed form: the fresh id is the counter value, the
owner entry (when present) is popped from the session map, and the new
session is stored and indexed. -/
theorem create_session_eq (store : ImportSessionStore) (uid : String)
    (movies : List MatchedMovieItem) (te mf tv ar now : Int) :
    create_session store uid movies te mf tv ar now =
      (store.next_id,
       { sessions := dictInsert store.next_id
           { user_id := uid, movies := movies.take MAX_MOVIES_PER_SESSION,
             created_at := now, total_entries := te, movies_found := mf,
             tv_shows_filtered := tv, already_ranked := ar }
           (match dictGet uid store.user_sessions with
            | some old => dictErase old store.sessions
            | none => store.sessions),
         user_sessions := dictInsert uid store.next_id store.user_sessions,
         next_id := store.next_id + 1 }) := by
  unfold create_session
  cases dictGet uid store.user_sessions <;> rfl

/-- C7: for every item list passed to create_session, the stored session
holds exactly the first MAX_MOVIES_PER_SESSION items in their original
order; the excess is silently dropped and creation never fails, and a list
at or under the cap is stored unchanged. -/
theorem C7_cap_truncation (store : ImportSessionStore) (user_id : String)
    (movies : List MatchedMovieItem)
    (total_entries movies_found tv_shows_filtered already_ranked now : Int) :
    ∃ sess : ImportSession,
      dictGet
        (create_session store user_id movies total_entries movies_found
          tv_shows_filtered already_ranked now).1
        (create_session store user_id movies total_entries movies_found
          tv_shows_filtered already_ranked now).2.sessions = some sess ∧
      sess.movies = movies.take MAX_MOVIES_PER_SESSION ∧
      (movies.length ≤ MAX_MOVIES_PER_SESSION → sess.movies = movies) ∧
      (MAX_MOVIES_PER_SESSION < movies.length →
        sess.movies.length = MAX_MOVIES_PER_SESSION) := by
  rw [create_session_eq]
  refine ⟨_, dictGet_insert_self _ _ _, rfl, ?_, ?_⟩
  · intro h
    exact List.take_of_length_le h
  · intro h
    simp only [List.length_take]
    omega

/-- Witness for C7 at a concrete over-cap and a concrete under-cap call. -/
theorem C7_witness :
    (∃ sess : ImportSession,
      dictGet
        (create_session ⟨[], [], 0⟩ "u" (List.replicate 501 default) 0 0 0 0 0).1
        (create_session ⟨[], [], 0⟩ "u" (List.replicate 501 default) 0 0 0 0 0).2.sessions
        = some sess ∧
      sess.movies = (List.replicate 501 (default : MatchedMovieItem)).take
        MAX_MOVIES_PER_SESSION ∧
      ((List.replicate 501 (default : MatchedMovieItem)).length ≤
          MAX_MOVIES_PER_SESSION →
        sess.movies = List.replicate 501 (default : MatchedMovieItem)) ∧
      (MAX_MOVIES_PER_SESSION < (List.replicate 501 (default : MatchedMovieItem)).length →
        sess.movies.length = MAX_MOVIES_PER_SESSION)) ∧
    (∃ sess : ImportSession,
      dictGet
        (create_session ⟨[], [], 0⟩ "u" [(default : MatchedMovieItem)] 0 0 0 0 0).1
        (create_session ⟨[], [], 0⟩ "u" [(default : MatchedMovieItem)] 0 0 0 0 0).2.sessions
        = some sess ∧
      sess.movies = [(default : MatchedMovieItem)].take MAX_MOVIES_PER_SESSION ∧
      ([(default : MatchedMovieItem)].length ≤ MAX_MOVIES_PER_SESSION →
        sess.movies = [(default : MatchedMovieItem)]) ∧
      (MAX_MOVIES_PER_SESSION < [(default : MatchedMovieItem)].length →
        sess.movies.length = MAX_MOVIES_PER_SESSION)) :=
  ⟨C7_cap_truncation ⟨[], [], 0⟩ "u" (List.replicate 501 default) 0 0 0 0 0,
   C7_cap_truncation ⟨[], [], 0⟩ "u" [(default : MatchedMovieItem)] 0 0 0 0 0⟩

theorem dictErase_eq_self_of_not_mem {α β : Type} [DecidableEq α] {k : α}
    {d : List (α × β)} (h : k ∉ d.map Prod.fst) : dictErase k d = d := by
  induction d with
  | nil => rfl
  | cons p t ih =>
    obtain ⟨a, b⟩ := p
    simp only [List.map_cons, List.mem_cons, not_or] at h
    have hrec := ih h.2
    simp [dictErase, List.filter_cons, Ne.symm h.1] at hrec ⊢
    simpa [dictErase] using hrec

theorem length_dictErase_add_one {α β : Type} [DecidableEq α] {k : α} {v : β}
    {d : List (α × β)} (hnd : (d.map Prod.fst).Nodup)
    (h : dictGet k d = some v) : (dictErase k d).length + 1 = d.length := by
  induction d with
  | nil => simp [dictGet] at h
  | cons p t ih =>
    obtain ⟨a, b⟩ := p
    simp only [List.map_cons, List.nodup_cons] at hnd
    by_cases hak : a = k
    · subst hak
      have ht : dictErase a t = t := dictErase_eq_self_of_not_mem hnd.1
      have hc : dictErase a ((a, b) :: t) = t := by
        simp [dictErase, List.filter_cons]
        simpa [dictErase] using ht
      simp [hc]
    · have h2 : dictGet k t = some v := by simpa [dictGet, hak] using h
      have hrec := ih hnd.2 h2
      have hc : dictErase k ((a, b) :: t) = (a, b) :: dictErase k t := by
        simp [dictErase, List.filter_cons, hak]
      simp [hc]
      omega

/-- C5 counterexample: a session 5000 seconds past creation (beyond the
1800 second TTL) accessed through get with a non-owner caller id is
reported not-found but is NOT deleted: the store is unchanged and the
session count still includes the expired session, while the claim says
any access deletes it and removes it from the count. -/
theorem C5_counterexample :
    (5000 : Int) - sessExpired.created_at > SESSION_TTL_MINUTES * 60 ∧
    get_session storeExpired 0 "intruder" 5000 = (storeExpired, none) ∧
    get_session_count (get_session storeExpired 0 "intruder" 5000).1 = 1 := by
  refine ⟨by decide, by decide, by decide⟩

/-- C5 amended: once the TTL has strictly elapsed, get with any caller id
returns not-found; when the caller is the owner the expired session is
deleted as a side effect and the session count drops by one, while a
non-owner access leaves the store, and hence the count, unchanged. -/
theorem C5_expiry_amended (store : ImportSessionStore) (sid : Nat) (uid : String)
    (now : Int) (session : ImportSession)
    (hdict : dictGet sid store.sessions = some session)
    (hexp : now - session.created_at > SESSION_TTL_MINUTES * 60) :
    (get_session store sid uid now).2 = none ∧
    (uid = session.user_id →
      (get_session store sid uid now).1 = delete_session store sid ∧
      dictGet sid (get_session store sid uid now).1.sessions = none ∧
      ((store.sessions.map Prod.fst).Nodup →
        get_session_count (get_session store sid uid now).1 + 1 =
          get_session_count store)) ∧
    (uid ≠ session.user_id → (get_session store sid uid now).1 = store) := by
  by_cases howner : session.user_id = uid
  · have hget : get_session store sid uid now = (delete_session store sid, none) := by
      simp [get_session, hdict, howner, hexp]
    refine ⟨by simp [hget], fun _ => ⟨by simp [hget], ?_, ?_⟩, fun hne => ?_⟩
    · simp [hget, delete_session, hdict, dictGet_erase_self]
    · intro hnd
      simp [hget, delete_session, hdict, get_session_count]
      exact length_dictErase_add_one hnd hdict
    · exact absurd howner.symm hne
  · have hget : get_session store sid uid now = (store, none) := by
      simp [get_session, hdict, howner]
    exact ⟨by simp [hget], fun h => absurd h.symm howner, fun _ => by simp [hget]⟩

/-- Witness for C5 amended: the concrete expired session accessed by its
owner at time 5000. -/
theorem C5_witness :
    (get_session storeExpired 0 "owner" 5000).2 = none ∧
    ("owner" = sessExpired.user_id →
      (get_session storeExpired 0 "owner" 5000).1 = delete_session storeExpired 0 ∧
      dictGet 0 (get_session storeExpired 0 "owner" 5000).1.sessions = none ∧
      ((storeExpired.sessions.map Prod.fst).Nodup →
        get_session_count (get_session storeExpired 0 "owner" 5000).1 + 1 =
          get_session_count storeExpired)) ∧
    ("owner" ≠ sessExpired.user_id →
      (get_session storeExpired 0 "owner" 5000).1 = storeExpired) :=
  C5_expiry_amended storeExpired 0 "owner" 5000 sessExpired (by decide) (by decide)

/-- get_session on a live owned session returns it and leaves the store
unchanged. -/
theorem get_session_live {store : ImportSessionStore} {sid : Nat} {uid : String}
    {now : Int} {session : ImportSession}
    (h1 : dictGet sid store.sessions = some session)
    (h2 : session.user_id = uid)
    (h3 : now - session.created_at ≤ SESSION_TTL_MINUTES * 60) :
    get_session store sid uid now = (store, some session) := by
  have h4 : ¬(now - session.created_at > SESSION_TTL_MINUTES * 60) := by omega
  simp [get_session, h1, h2, h4]

/-- C2 counterexample: on an item whose status is "added",
update_import_movie_match is not rejected: it succeeds and replaces the
stored match, directly contradicting the claim that a non-pending item is
rejected and never changed. -/
theorem C2_counterexample :
    itemAdded.status = "added" ∧
    (update_import_movie_match storeAdded 0 0 reqNewMatch "u" 10).2 =
      .ok { itemAdded with
              tmdb_match := some (matchOfRequest reqNewMatch),
              confidence := 1, alternatives := [] } ∧
    (∃ sess1 : ImportSession,
      dictGet 0 (update_import_movie_match storeAdded 0 0 reqNewMatch
          "u" 10).1.sessions = some sess1 ∧
      (sess1.movies.getD 0 default).tmdb_match = some (matchOfRequest reqNewMatch) ∧
      (sess1.movies.getD 0 default).tmdb_match ≠ itemAdded.tmdb_match) := by
  refine ⟨rfl, rfl, ⟨_, rfl, by decide, by decide⟩⟩

/-- C2 amended: update_import_movie_match performs no status check. On a
live owned session and an in-range index it always succeeds, whatever the
item status: it replaces the match with the supplied candidate, forces
confidence 1.0, clears the alternatives, and leaves the status field
unchanged, writing the mutated item back into the session. -/
theorem C2_update_match_any_status (store : ImportSessionStore) (sid : Nat)
    (uid : String) (now : Int) (session : ImportSession) (index : Int)
    (req : ImportMovieMatchRequest)
    (hdict : dictGet sid store.sessions = some session)
    (howner : session.user_id = uid)
    (hlive : now - session.created_at ≤ SESSION_TTL_MINUTES * 60)
    (hge : 0 ≤ index) (hlt : index.toNat < session.movies.length) :
    update_import_movie_match store sid index req uid now =
      ({ store with
          sessions := dictInsert sid
            { session with
                movies := session.movies.set index.toNat
                  { session.movies.getD index.toNat default with
                      tmdb_match := some (matchOfRequest req),
                      confidence := 1, alternatives := [] } }
            store.sessions },
       .ok { session.movies.getD index.toNat default with
               tmdb_match := some (matchOfRequest req),
               confidence := 1, alternatives := [] }) ∧
    ({ session.movies.getD index.toNat default with
         tmdb_match := some (matchOfRequest req),
         confidence := 1, alternatives := [] } : MatchedMovieItem).status =
      (session.movies.getD index.toNat default).status := by
  have hb : ¬(index < 0 ∨ (session.movies.length : Int) ≤ index) := by
    push_neg
    omega
  refine ⟨?_, rfl⟩
  unfold update_import_movie_match
  rw [get_session_live hdict howner hlive]
  simp only [hb, if_false]

/-- Witness for C2 amended at the concrete store whose only item is
already added. -/
theorem C2_witness :
    update_import_movie_match storeAdded 0 0 reqNewMatch "u" 10 =
      ({ storeAdded with
          sessions := dictInsert 0
            { sessAdded with
                movies := sessAdded.movies.set 0
                  { sessAdded.movies.getD 0 default with
                      tmdb_match := some (matchOfRequest reqNewMatch),
                      confidence := 1, alternatives := [] } }
            storeAdded.sessions },
       .ok { sessAdded.movies.getD 0 default with
               tmdb_match := some (matchOfRequest reqNewMatch),
               confidence := 1, alternatives := [] }) ∧
    ({ sessAdded.movies.getD 0 default with
         tmdb_match := some (matchOfRequest reqNewMatch),
         confidence := 1, alternatives := [] } : MatchedMovieItem).status =
      (sessAdded.movies.getD 0 default).status :=
  C2_update_match_any_status storeAdded 0 "u" 10 sessAdded 0 reqNewMatch
    (by decide) (by decide) (by decide) (by decide) (by decide)

/-- Folding any sequence of update arguments through the whitelist filter
never changes a field outside the whitelist, nor the owner. -/
theorem whitelist_foldl_preserved (session : ImportSession)
    (updates : List SessionField) :
    (updates.foldl
      (fun s u => if fieldName u ∈ allowed_fields then setField s u else s)
        session).user_id = session.user_id ∧
    (updates.foldl
      (fun s u => if fieldName u ∈ allowed_fields then setField s u else s)
        session).created_at = session.created_at ∧
    (updates.foldl
      (fun s u => if fieldName u ∈ allowed_fields then setField s u else s)
        session).total_entries = session.total_entries ∧
    (updates.foldl
      (fun s u => if fieldName u ∈ allowed_fields then setField s u else s)
        session).movies_found = session.movies_found ∧
    (updates.foldl
      (fun s u => if fieldName u ∈ allowed_fields then setField s u else s)
        session).tv_shows_filtered = session.tv_shows_filtered ∧
    (updates.foldl
      (fun s u => if fieldName u ∈ allowed_fields then setField s u else s)
        session).already_ranked = session.already_ranked := by
  induction updates generalizing session with
  | nil => exact ⟨rfl, rfl, rfl, rfl, rfl, rfl⟩
  | cons u rest ih =>
    simp only [List.foldl_cons]
    have h6 :
        (if fieldName u ∈ allowed_fields then setField session u else session).user_id
            = session.user_id ∧
        (if fieldName u ∈ allowed_fields then setField session u else session).created_at
            = session.created_at ∧
        (if fieldName u ∈ allowed_fields then setField session u else session).total_entries
            = session.total_entries ∧
        (if fieldName u ∈ allowed_fields then setField session u else session).movies_found
            = session.movies_found ∧
        (if fieldName u ∈ allowed_fields then setField session u else session).tv_shows_filtered
            = session.tv_shows_filtered ∧
        (if fieldName u ∈ allowed_fields then setField session u else session).already_ranked
            = session.already_ranked := by
      cases u <;> simp [fieldName, allowed_fields, setField]
    obtain ⟨a1, a2, a3, a4, a5, a6⟩ := h6
    obtain ⟨b1, b2, b3, b4, b5, b6⟩ :=
      ih (if fieldName u ∈ allowed_fields then setField session u else session)
    exact ⟨b1.trans a1, b2.trans a2, b3.trans a3, b4.trans a4,
      b5.trans a5, b6.trans a6⟩

/-- C9: on a live owned session, update_session applies only the
whitelisted fields: whatever mix of update arguments is supplied, the
resulting stored session keeps the original user_id, created_at,
total_entries, movies_found, tv_shows_filtered and already_ranked, it is
stored under the same session id, and the owner index is untouched. -/
theorem C9_update_whitelist (store : ImportSessionStore) (sid : Nat)
    (uid : String) (now : Int) (session : ImportSession)
    (updates : List SessionField)
    (hdict : dictGet sid store.sessions = some session)
    (howner : session.user_id = uid)
    (hlive : now - session.created_at ≤ SESSION_TTL_MINUTES * 60) :
    ∃ session1 : ImportSession,
      update_session store sid uid updates now =
        ({ store with sessions := dictInsert sid session1 store.sessions },
         some session1) ∧
      dictGet sid (update_session store sid uid updates now).1.sessions =
        some session1 ∧
      (update_session store sid uid updates now).1.user_sessions =
        store.user_sessions ∧
      session1.user_id = session.user_id ∧
      session1.created_at = session.created_at ∧
      session1.total_entries = session.total_entries ∧
      session1.movies_found = session.movies_found ∧
      session1.tv_shows_filtered = session.tv_shows_filtered ∧
      session1.already_ranked = session.already_ranked := by
  have hupd : update_session store sid uid updates now =
      ({ store with
          sessions := dictInsert sid
            (updates.foldl
              (fun s u => if fieldName u ∈ allowed_fields then setField s u else s)
              session)
            store.sessions },
       some (updates.foldl
         (fun s u => if fieldName u ∈ allowed_fields then setField s u else s)
         session)) := by
    unfold update_session
    rw [get_session_live hdict howner hlive]
  obtain ⟨p1, p2, p3, p4, p5, p6⟩ := whitelist_foldl_preserved session updates
  exact ⟨_, hupd, by rw [hupd]; exact dictGet_insert_self _ _ _, by rw [hupd],
    p1, p2, p3, p4, p5, p6⟩

/-- Witness for C9: a concrete update supplying both whitelisted and
non-whitelisted fields against the concrete live session. -/
theorem C9_witness :
    ∃ session1 : ImportSession,
      update_session storeAdded 0 "u"
          [SessionField.user_id "evil", SessionField.added_count 5,
           SessionField.total_entries 99, SessionField.created_at 77] 10 =
        ({ storeAdded with
            sessions := dictInsert 0 session1 storeAdded.sessions },
         some session1) ∧
      dictGet 0 (update_session storeAdded 0 "u"
          [SessionField.user_id "evil", SessionField.added_count 5,
           SessionField.total_entries 99, SessionField.created_at 77]
          10).1.sessions = some session1 ∧
      (update_session storeAdded 0 "u"
          [SessionField.user_id "evil", SessionField.added_count 5,
           SessionField.total_entries 99, SessionField.created_at 77]
          10).1.user_sessions = storeAdded.user_sessions ∧
      session1.user_id = sessAdded.user_id ∧
      session1.created_at = sessAdded.created_at ∧
      session1.total_entries = sessAdded.total_entries ∧
      session1.movies_found = sessAdded.movies_found ∧
      session1.tv_shows_filtered = sessAdded.tv_shows_filtered ∧
      session1.already_ranked = sessAdded.already_ranked :=
  C9_update_whitelist storeAdded 0 "u" 10 sessAdded
    [SessionField.user_id "evil", SessionField.added_count 5,
     SessionField.total_entries 99, SessionField.created_at 77]
    (by decide) (by decide) (by decide)

/-- The source confidence computation equals the clamped weighted formula
with the factored-out year bonus. -/
theorem calculate_confidence_eq (sim : String → String → Rat)
    (parsed_title tmdb_title : String) (parsed_year tmdb_year : Option Int) :
    calculate_confidence sim parsed_title parsed_year tmdb_title tmdb_year =
      min (sim (pyLower parsed_title) (pyLower tmdb_title) * (6 / 10) +
        year_bonus parsed_year tmdb_year) 1 := by
  cases parsed_year with
  | none => simp [calculate_confidence, year_bonus, truthyInt]
  | some py =>
    cases tmdb_year with
    | none => simp [calculate_confidence, year_bonus, truthyInt]
    | some ty =>
      by_cases hpy : py = 0
      · simp [calculate_confidence, year_bonus, truthyInt, hpy]
      · by_cases hty : ty = 0
        · simp [calculate_confidence, year_bonus, truthyInt, hpy, hty]
        · by_cases heq : py = ty
          · simp [calculate_confidence, year_bonus, truthyInt, hpy, hty, heq]
          · by_cases hone : (py - ty).natAbs = 1 <;>
              simp [calculate_confidence, year_bonus, truthyInt, hpy, hty, heq, hone]

/-- The year bonus is between 0 and 4/10. -/
theorem year_bonus_bounds (parsed_year tmdb_year : Option Int) :
    0 ≤ year_bonus parsed_year tmdb_year ∧
    year_bonus parsed_year tmdb_year ≤ 4 / 10 := by
  cases parsed_year with
  | none => simp [year_bonus]; norm_num
  | some py =>
    cases tmdb_year with
    | none => simp [year_bonus]; norm_num
    | some ty =>
      simp only [year_bonus]
      split_ifs <;> norm_num

/-- C8 counterexample: with identical titles (similarity 1) and both years
present and equal to 0, the claimed formula gives a 0.4 exact-match bonus
and a clamped score of 1, but the source grants no bonus because Python
treats the integer 0 as falsy, returning 0.6. -/
theorem C8_counterexample :
    calculate_confidence (fun _ _ => 1) "Movie X" (some 0) "Movie X" (some 0) =
      6 / 10 ∧
    confidence_spec (fun _ _ => 1) "Movie X" (some 0) "Movie X" (some 0) = 1 ∧
    (6 / 10 : Rat) ≠ 1 := by
  refine ⟨?_, ?_, by norm_num⟩
  · unfold calculate_confidence
    norm_num [truthyInt, min_def]
  · unfold confidence_spec
    norm_num [min_def]

/-- C8 amended: the confidence equals 0.6 times the similarity ratio of
the lowercased titles plus a year bonus of 0.4 on an exact match and 0.2
one year off, except that a year equal to 0 counts as absent (Python
truthiness); the result is clamped to at most 1, lies in [0, 1] whenever
the similarity does, identical titles with an exact nonzero year match
give exactly 1, and an entry without candidates gets confidence exactly
0. -/
theorem C8_confidence_amended (sim : String → String → Rat)
    (parsed_title tmdb_title : String) (parsed_year tmdb_year : Option Int)
    (h0 : 0 ≤ sim (pyLower parsed_title) (pyLower tmdb_title))
    (h1 : sim (pyLower parsed_title) (pyLower tmdb_title) ≤ 1) :
    calculate_confidence sim parsed_title parsed_year tmdb_title tmdb_year =
      min (sim (pyLower parsed_title) (pyLower tmdb_title) * (6 / 10) +
        year_bonus parsed_year tmdb_year) 1 ∧
    0 ≤ calculate_confidence sim parsed_title parsed_year tmdb_title tmdb_year ∧
    calculate_confidence sim parsed_title parsed_year tmdb_title tmdb_year ≤ 1 ∧
    (∀ y : Int, y ≠ 0 → sim (pyLower parsed_title) (pyLower parsed_title) = 1 →
      calculate_confidence sim parsed_title (some y) parsed_title (some y) = 1) ∧
    (∀ (existing : List Int) (m : ParsedMovie) (o2 : SearchOutcome)
        (acc : List MatchedMovieItem × Int),
      match_step sim existing ⟨m, SearchOutcome.ok [], o2⟩ acc =
        Except.ok (acc.1 ++ [noMatchItem m], acc.2) ∧
      (noMatchItem m).confidence = 0) := by
  refine ⟨calculate_confidence_eq sim parsed_title tmdb_title parsed_year tmdb_year,
    ?_, ?_, ?_, ?_⟩
  · rw [calculate_confidence_eq]
    have hb := (year_bonus_bounds parsed_year tmdb_year).1
    have hmul : 0 ≤ sim (pyLower parsed_title) (pyLower tmdb_title) * (6 / 10) :=
      mul_nonneg h0 (by norm_num)
    exact le_min (by linarith) (by norm_num)
  · rw [calculate_confidence_eq]
    exact min_le_right _ _
  · intro y hy hsim
    simp [calculate_confidence, truthyInt, hy, hsim]
    norm_num
  · intro existing m o2 acc
    exact ⟨rfl, rfl⟩

/-- Witness for C8 amended at a concrete similarity function, titles and
years. -/
theorem C8_witness :
    calculate_confidence (fun _ _ => 1) "Heat" (some 1995) "Heat" (some 1995) =
      min ((fun (_ _ : String) => (1 : Rat)) (pyLower "Heat") (pyLower "Heat") *
        (6 / 10) + year_bonus (some 1995) (some 1995)) 1 ∧
    0 ≤ calculate_confidence (fun _ _ => 1) "Heat" (some 1995) "Heat" (some 1995) ∧
    calculate_confidence (fun _ _ => 1) "Heat" (some 1995) "Heat" (some 1995) ≤ 1 ∧
    (∀ y : Int, y ≠ 0 →
      (fun (_ _ : String) => (1 : Rat)) (pyLower "Heat") (pyLower "Heat") = 1 →
      calculate_confidence (fun _ _ => 1) "Heat" (some y) "Heat" (some y) = 1) ∧
    (∀ (existing : List Int) (m : ParsedMovie) (o2 : SearchOutcome)
        (acc : List MatchedMovieItem × Int),
      match_step (fun _ _ => 1) existing ⟨m, SearchOutcome.ok [], o2⟩ acc =
        Except.ok (acc.1 ++ [noMatchItem m], acc.2) ∧
      (noMatchItem m).confidence = 0) :=
  C8_confidence_amended (fun _ _ => 1) "Heat" "Heat" (some 1995) (some 1995)
    (by norm_num) (by norm_num)

/-- One row loop step in terms of the three row classifiers. -/
theorem process_row_classified (pd : Option String → Option Int × Option Int)
    (acc : ParseAcc) (row : CsvRow) :
    process_row pd acc row =
      match row_movie pd row with
      | some m =>
          { acc with movies := acc.movies ++ [m],
                     total_entries := acc.total_entries + 1 }
      | none =>
          if row_is_error row then
            { acc with parse_errors := acc.parse_errors + 1,
                       total_entries := acc.total_entries + 1 }
          else
            { acc with tv_shows_filtered := acc.tv_shows_filtered + 1,
                       total_entries := acc.total_entries + 1 } := by
  obtain ⟨ty, ti, dw, iu⟩ := row
  cases ty with
  | none => simp [process_row, row_movie, row_is_error]
  | some ty =>
    cases ti with
    | none => simp [process_row, row_movie, row_is_error]
    | some ti =>
      by_cases hti : pyStrip ti = ""
      · simp [process_row, row_movie, row_is_error, hti]
      · by_cases hty : pyLower (pyStrip ty) = "movie"
        · cases iu with
          | none => simp [process_row, row_movie, row_is_error, hti, hty]
          | some iu => simp [process_row, row_movie, row_is_error, hti, hty]
        · simp [process_row, row_movie, row_is_error, row_is_tv, hti, hty]

/-- The classifiers are mutually consistent: an error row is neither a TV
row nor an emitted movie, and a non-error non-movie row is a TV row. -/
theorem row_classifiers_consistent (pd : Option String → Option Int × Option Int)
    (row : CsvRow) :
    (row_movie pd row ≠ none → row_is_error row = false ∧ row_is_tv row = false) ∧
    (row_movie pd row = none → row_is_error row = true → row_is_tv row = false) ∧
    (row_movie pd row = none → row_is_error row = false → row_is_tv row = true) := by
  obtain ⟨ty, ti, dw, iu⟩ := row
  cases ty with
  | none => simp [row_movie, row_is_error, row_is_tv]
  | some ty =>
    cases ti with
    | none => simp [row_movie, row_is_error, row_is_tv]
    | some ti =>
      by_cases hti : pyStrip ti = ""
      · simp [row_movie, row_is_error, row_is_tv, hti]
      · by_cases hty : pyLower (pyStrip ty) = "movie"
        · cases iu with
          | none => simp [row_movie, row_is_error, row_is_tv, hti, hty]
          | some iu => simp [row_movie, row_is_error, row_is_tv, hti, hty]
        · simp [row_movie, row_is_error, row_is_tv, hti, hty]

/-- The row loop in closed form over any starting accumulator. -/
theorem process_row_foldl (pd : Option String → Option Int × Option Int)
    (rows : List CsvRow) (acc : ParseAcc) :
    rows.foldl (process_row pd) acc =
      { movies := acc.movies ++ rows.filterMap (row_movie pd),
        total_entries := acc.total_entries + rows.length,
        tv_shows_filtered :=
          acc.tv_shows_filtered + (rows.filter row_is_tv).length,
        parse_errors := acc.parse_errors + (rows.filter row_is_error).length } := by
  induction rows generalizing acc with
  | nil => simp
  | cons row rest ih =>
    rw [List.foldl_cons, ih, process_row_classified]
    obtain ⟨h1, h2, h3⟩ := row_classifiers_consistent pd row
    cases hmv : row_movie pd row with
    | some m =>
      obtain ⟨he, htv⟩ := h1 (by simp [hmv])
      simp [List.filterMap_cons, List.filter_cons, hmv, he, htv,
        List.append_assoc]
      omega
    | none =>
      by_cases he : row_is_error row
      · have htv := h2 hmv he
        simp [List.filterMap_cons, List.filter_cons, hmv, he, htv]
        omega
      · have htv := h3 hmv (by simpa using he)
        simp [List.filterMap_cons, List.filter_cons, hmv, he, htv]
        omega

/-- C4 counterexample: a row of type "TV Show" with an empty title is
counted as a parse error, not as a filtered TV row, although the claim
says a non-movie row increments tvFiltered regardless of its title. -/
theorem C4_counterexample :
    (parse_amazon_prime_csv_rows pdNone [rowTVEmpty]).tv_shows_filtered = 0 ∧
    (parse_amazon_prime_csv_rows pdNone [rowTVEmpty]).parse_errors = 1 ∧
    rowTVEmpty.type = some "TV Show" ∧
    pyLower (pyStrip "TV Show") ≠ "movie" := by
  refine ⟨by decide, by decide, rfl, by decide⟩

/-- C4 amended: each data row is classified exactly once, with the title
check first: any row with a None cell in a read field or an
empty/whitespace stripped title increments errorRows (regardless of its
type) and is excluded; among the remaining rows, those whose type does not
case-insensitively equal movie increment tvFiltered; the rest are emitted
in input order and moviesFound counts exactly the emitted entries. -/
theorem C4_row_classification (pd : Option String → Option Int × Option Int)
    (rows : List CsvRow) :
    parse_amazon_prime_csv_rows pd rows =
      { movies := rows.filterMap (row_movie pd),
        total_entries := (rows.length : Int),
        movies_found := ((rows.filterMap (row_movie pd)).length : Int),
        tv_shows_filtered := ((rows.filter row_is_tv).length : Int),
        parse_errors := ((rows.filter row_is_error).length : Int) } := by
  unfold parse_amazon_prime_csv_rows
  rw [process_row_foldl]
  simp

/-- One matcher iteration in terms of its per-entry outcome. -/
theorem match_step_eq (sim : String → String → Rat) (ex : List Int)
    (env : MatchEnv) (acc : List MatchedMovieItem × Int) :
    match_step sim ex env acc =
      match step_result sim ex env with
      | .error e => .error e
      | .ok none => .ok (acc.1, acc.2 + 1)
      | .ok (some item) => .ok (acc.1 ++ [item], acc.2) := by
  obtain ⟨movie, first, retry⟩ := env
  cases first with
  | ok results =>
    cases results with
    | nil => rfl
    | cons best rest =>
      by_cases h : best.tmdb_id ∈ ex <;> simp [match_step, step_result, h]
  | rateLimited =>
    cases retry with
    | ok results =>
      cases results with
      | nil => rfl
      | cons best rest =>
        by_cases h : best.tmdb_id ∈ ex <;> simp [match_step, step_result, h]
    | rateLimited => rfl
    | err => rfl
  | err => rfl

/-- The loop body raises out of the matcher exactly when the entry is
rate-limited and its retry raises a non-rate-limit error. -/
theorem step_result_error_iff (sim : String → String → Rat) (ex : List Int)
    (env : MatchEnv) :
    step_result sim ex env = .error () ↔
      env.first = .rateLimited ∧ env.retry = .err := by
  obtain ⟨movie, first, retry⟩ := env
  cases first with
  | ok results =>
    cases results with
    | nil => simp [step_result]
    | cons best rest =>
      by_cases h : best.tmdb_id ∈ ex <;> simp [step_result, h]
  | rateLimited =>
    cases retry with
    | ok results =>
      cases results with
      | nil => simp [step_result]
      | cons best rest =>
        by_cases h : best.tmdb_id ∈ ex <;> simp [step_result, h]
    | rateLimited => simp [step_result]
    | err => simp [step_result]
  | err => simp [step_result]

/-- Every emitted item carries the parsed fields of its source entry. -/
theorem step_item_parsed (sim : String → String → Rat) (ex : List Int)
    (env : MatchEnv) (item : MatchedMovieItem)
    (h : step_result sim ex env = .ok (some item)) :
    item.parsed = mkParsedItem env.movie := by
  obtain ⟨movie, first, retry⟩ := env
  cases first with
  | ok results =>
    cases results with
    | nil =>
      simp [step_result] at h
      simp [← h, noMatchItem]
    | cons best rest =>
      by_cases hmem : best.tmdb_id ∈ ex <;> simp [step_result, hmem] at h <;>
        simp [← h]
  | rateLimited =>
    cases retry with
    | ok results =>
      cases results with
      | nil =>
        simp [step_result] at h
        simp [← h, noMatchItem]
      | cons best rest =>
        by_cases hmem : best.tmdb_id ∈ ex <;> simp [step_result, hmem] at h <;>
          simp [← h]
    | rateLimited =>
      simp [step_result] at h
      simp [← h, noMatchItem]
    | err => simp [step_result] at h
  | err =>
    simp [step_result] at h
    simp [← h, noMatchItem]

/-- An entry whose initial search raises is emitted as a pending no-match
item. -/
theorem step_result_err_first (sim : String → String → Rat) (ex : List Int)
    (env : MatchEnv) (h : env.first = .err) :
    step_result sim ex env = .ok (some (noMatchItem env.movie)) := by
  obtain ⟨movie, first, retry⟩ := env
  cases h
  rfl

/-- A matcher run that returns normally: no entry raised, the items are
the per-entry emissions in order, and the already-ranked count counts the
removed entries. -/
theorem match_run_ok (sim : String → String → Rat) (ex : List Int) :
    ∀ (envs : List MatchEnv) (m : List MatchedMovieItem) (a : Int)
      (M : List MatchedMovieItem) (A : Int),
    match_movies_with_tmdb sim ex envs (m, a) = .ok (M, A) →
    (∀ env ∈ envs, step_result sim ex env ≠ .error ()) ∧
    M = m ++ envs.filterMap (step_item sim ex) ∧
    A = a + ((envs.filter (entry_removed sim ex)).length : Int)
  | [], m, a, M, A => by
    intro h
    simp [match_movies_with_tmdb] at h
    simp [h.1, h.2]
  | env :: rest, m, a, M, A => by
    intro h
    rw [match_movies_with_tmdb, match_step_eq] at h
    cases hsr : step_result sim ex env with
    | error e =>
      rw [hsr] at h
      simp at h
    | ok o =>
      cases o with
      | none =>
        rw [hsr] at h
        obtain ⟨hne, hM, hA⟩ := match_run_ok sim ex rest m (a + 1) M A h
        refine ⟨?_, ?_, ?_⟩
        · intro e he
          rcases List.mem_cons.mp he with rfl | he2
          · simp [hsr]
          · exact hne e he2
        · rw [hM]
          simp [List.filterMap_cons, step_item, hsr]
        · rw [hA]
          simp [List.filter_cons, entry_removed, hsr]
          omega
      | some item =>
        rw [hsr] at h
        obtain ⟨hne, hM, hA⟩ := match_run_ok sim ex rest (m ++ [item]) a M A h
        refine ⟨?_, ?_, ?_⟩
        · intro e he
          rcases List.mem_cons.mp he with rfl | he2
          · simp [hsr]
          · exact hne e he2
        · rw [hM]
          simp [List.filterMap_cons, step_item, hsr]
        · rw [hA]
          simp [List.filter_cons, entry_removed, hsr]

/-- When no entry is rate-limited with an erroring retry, the matcher
returns normally with the per-entry emissions. -/
theorem match_run_no_error (sim : String → String → Rat) (ex : List Int) :
    ∀ (envs : List MatchEnv) (m : List MatchedMovieItem) (a : Int),
    (∀ env ∈ envs, step_result sim ex env ≠ .error ()) →
    match_movies_with_tmdb sim ex envs (m, a) =
      .ok (m ++ envs.filterMap (step_item sim ex),
           a + ((envs.filter (entry_removed sim ex)).length : Int))
  | [], m, a => by
    intro h
    simp [match_movies_with_tmdb]
  | env :: rest, m, a => by
    intro h
    rw [match_movies_with_tmdb, match_step_eq]
    cases hsr : step_result sim ex env with
    | error e =>
      exact absurd (by cases e; exact hsr) (h env (List.mem_cons_self env rest))
    | ok o =>
      have hrest := match_run_no_error sim ex rest
      cases o with
      | none =>
        dsimp only
        rw [hrest (m) (a + 1) (fun e he => h e (List.mem_cons_of_mem env he))]
        simp [List.filterMap_cons, List.filter_cons, step_item, entry_removed, hsr]
        omega
      | some item =>
        dsimp only
        rw [hrest (m ++ [item]) a (fun e he => h e (List.mem_cons_of_mem env he))]
        simp [List.filterMap_cons, List.filter_cons, step_item, entry_removed, hsr]

/-- Per run without errors, every entry contributes exactly one unit:
an emitted item or an already-ranked removal. -/
theorem filterMap_filter_length (sim : String → String → Rat) (ex : List Int) :
    ∀ envs : List MatchEnv,
    (∀ env ∈ envs, step_result sim ex env ≠ .error ()) →
    (envs.filterMap (step_item sim ex)).length +
      (envs.filter (entry_removed sim ex)).length = envs.length
  | [] => by intro _; rfl
  | env :: rest => by
    intro h
    have hrest := filterMap_filter_length sim ex rest
      (fun e he => h e (List.mem_cons_of_mem env he))
    cases hsr : step_result sim ex env with
    | error e =>
      exact absurd (by cases e; exact hsr) (h env (List.mem_cons_self env rest))
    | ok o =>
      cases o with
      | none =>
        simp [List.filterMap_cons, List.filter_cons, step_item, entry_removed, hsr]
        omega
      | some item =>
        simp [List.filterMap_cons, List.filter_cons, step_item, entry_removed, hsr]
        omega

/-- The emitted items, projected to their parsed entries, are exactly the
non-removed entries in input order. -/
theorem filterMap_parsed_map (sim : String → String → Rat) (ex : List Int) :
    ∀ envs : List MatchEnv,
    (∀ env ∈ envs, step_result sim ex env ≠ .error ()) →
    (envs.filterMap (step_item sim ex)).map (fun it => it.parsed) =
      (envs.filter (fun e => !entry_removed sim ex e)).map
        (fun e => mkParsedItem e.movie)
  | [] => by intro _; rfl
  | env :: rest => by
    intro h
    have hrest := filterMap_parsed_map sim ex rest
      (fun e he => h e (List.mem_cons_of_mem env he))
    cases hsr : step_result sim ex env with
    | error e =>
      exact absurd (by cases e; exact hsr) (h env (List.mem_cons_self env rest))
    | ok o =>
      cases o with
      | none =>
        simp [List.filterMap_cons, List.filter_cons, step_item, entry_removed, hsr,
          hrest]
      | some item =>
        have hp := step_item_parsed sim ex env item hsr
        simp [List.filterMap_cons, List.filter_cons, step_item, entry_removed, hsr,
          hrest, hp]

/-- C3 counterexample: an entry that is rate-limited and whose single
retry raises a non-rate-limit error makes the whole matcher raise: the
batch aborts and the following entry is never processed, although the
claim says any error during the retry degrades to a no-match item for
that entry alone. -/
theorem C3_counterexample :
    envAbort.first = SearchOutcome.rateLimited ∧
    envAbort.retry = SearchOutcome.err ∧
    match_movies_with_tmdb simZero [] [envAbort, envFine] ([], 0) =
      .error () := ⟨rfl, rfl, rfl⟩

/-- C3 amended: per-entry errors are isolated except in one case. If no
entry is rate-limited with a retry that raises a non-rate-limit error,
the matcher returns normally; every entry then yields exactly one outcome
(an item or an already-ranked removal), and an entry whose initial search
raised any error yields a pending no-match item while matching continues
with all other entries. An entry hitting the exceptional case makes the
whole batch abort. -/
theorem C3_error_isolation (sim : String → String → Rat) (ex : List Int)
    (envs : List MatchEnv)
    (h : ∀ env ∈ envs, ¬(env.first = SearchOutcome.rateLimited ∧
      env.retry = SearchOutcome.err)) :
    match_movies_with_tmdb sim ex envs ([], 0) =
      .ok (envs.filterMap (step_item sim ex),
           ((envs.filter (entry_removed sim ex)).length : Int)) ∧
    (envs.filterMap (step_item sim ex)).length +
      (envs.filter (entry_removed sim ex)).length = envs.length ∧
    (∀ env ∈ envs, env.first = SearchOutcome.err →
      noMatchItem env.movie ∈ envs.filterMap (step_item sim ex)) := by
  have hne : ∀ env ∈ envs, step_result sim ex env ≠ .error () := by
    intro env he hcontra
    exact h env he ((step_result_error_iff sim ex env).mp hcontra)
  refine ⟨?_, filterMap_filter_length sim ex envs hne, ?_⟩
  · have := match_run_no_error sim ex envs [] 0 hne
    simpa using this
  · intro env he herr
    exact List.mem_filterMap.mpr ⟨env, he,
      by simp [step_item, step_result_err_first sim ex env herr]⟩

/-- Witness for C3 amended: a batch with an erroring entry and a plain
entry, matched with no aborting entry present. -/
theorem C3_witness :
    match_movies_with_tmdb simZero [] [envErrFirst, envFine] ([], 0) =
      .ok ([envErrFirst, envFine].filterMap (step_item simZero []),
           ((([envErrFirst, envFine].filter
              (entry_removed simZero [])).length : Nat) : Int)) ∧
    ([envErrFirst, envFine].filterMap (step_item simZero [])).length +
      ([envErrFirst, envFine].filter (entry_removed simZero [])).length = 2 ∧
    (∀ env ∈ [envErrFirst, envFine], env.first = SearchOutcome.err →
      noMatchItem env.movie ∈
        [envErrFirst, envFine].filterMap (step_item simZero [])) :=
  C3_error_isolation simZero [] [envErrFirst, envFine] (by decide)

/-- C10: a matcher run that returns normally accounts for each input entry
exactly once: the emitted item count plus the already-ranked count equals
the number of entries, the emitted items carry their source parsed entries
in input order, and only entries whose best match was already ranked are
removed. -/
theorem C10_accounting (sim : String → String → Rat) (ex : List Int)
    (envs : List MatchEnv) (M : List MatchedMovieItem) (A : Int)
    (h : match_movies_with_tmdb sim ex envs ([], 0) = .ok (M, A)) :
    (M.length : Int) + A = envs.length ∧
    M = envs.filterMap (step_item sim ex) ∧
    M.map (fun it => it.parsed) =
      (envs.filter (fun e => !entry_removed sim ex e)).map
        (fun e => mkParsedItem e.movie) ∧
    A = ((envs.filter (entry_removed sim ex)).length : Int) := by
  obtain ⟨hne, hM, hA⟩ := match_run_ok sim ex envs [] 0 M A h
  have hlen := filterMap_filter_length sim ex envs hne
  have hmap := filterMap_parsed_map sim ex envs hne
  simp only [List.nil_append] at hM
  subst hM
  refine ⟨?_, rfl, hmap, by omega⟩
  omega

/-- Witness for C10: a concrete normal run with one no-match emission and
one already-ranked removal. -/
theorem C10_witness :
    ((([noMatchItem { title := "B" }] : List MatchedMovieItem).length : Int)
        + 1 = ([envFine, envRemoved] : List MatchEnv).length ∧
    [noMatchItem { title := "B" }] =
      [envFine, envRemoved].filterMap (step_item simZero [7]) ∧
    ([noMatchItem { title := "B" }] : List MatchedMovieItem).map
        (fun it => it.parsed) =
      ([envFine, envRemoved].filter
        (fun e => !entry_removed simZero [7] e)).map
        (fun e => mkParsedItem e.movie) ∧
    (1 : Int) =
      (([envFine, envRemoved].filter (entry_removed simZero [7])).length : Int)) :=
  C10_accounting simZero [7] [envFine, envRemoved]
    [noMatchItem { title := "B" }] 1 rfl

theorem dictGet_mem {α β : Type} [DecidableEq α] {k : α} {v : β}
    {d : List (α × β)} (h : dictGet k d = some v) : (k, v) ∈ d := by
  induction d with
  | nil => simp [dictGet] at h
  | cons p t ih =>
    obtain ⟨a, b⟩ := p
    by_cases hak : a = k
    · subst hak
      simp [dictGet] at h
      simp [h]
    · simp [dictGet, hak] at h
      exact List.mem_cons_of_mem _ (ih h)

theorem mem_dictErase {α β : Type} [DecidableEq α] {k : α} {p : α × β}
    {d : List (α × β)} : p ∈ dictErase k d ↔ p ∈ d ∧ p.1 ≠ k := by
  simp [dictErase, List.mem_filter]

theorem mem_dictInsert {α β : Type} [DecidableEq α] {k : α} {v : β} {p : α × β}
    {d : List (α × β)} : p ∈ dictInsert k v d ↔ p ∈ dictErase k d ∨ p = (k, v) := by
  simp [dictInsert]

theorem nodup_keys_erase {α β : Type} [DecidableEq α] (k : α) {d : List (α × β)}
    (h : (d.map Prod.fst).Nodup) : ((dictErase k d).map Prod.fst).Nodup :=
  h.sublist (List.Sublist.map Prod.fst (List.filter_sublist d))

theorem not_mem_keys_erase {α β : Type} [DecidableEq α] (k : α) (d : List (α × β)) :
    k ∉ (dictErase k d).map Prod.fst := by
  intro hmem
  obtain ⟨p, hp, hpk⟩ := List.mem_map.mp hmem
  exact absurd hpk (mem_dictErase.mp hp).2

theorem nodup_keys_insert {α β : Type} [DecidableEq α] (k : α) (v : β)
    {d : List (α × β)} (h : (d.map Prod.fst).Nodup) :
    ((dictInsert k v d).map Prod.fst).Nodup := by
  rw [dictInsert, List.map_append]
  simp only [List.map_cons, List.map_nil]
  rw [List.nodup_append]
  refine ⟨nodup_keys_erase k h, List.nodup_singleton k, ?_⟩
  intro a ha hak
  rw [List.mem_singleton] at hak
  exact not_mem_keys_erase k d (hak ▸ ha)

/-- get_session leaves the store unchanged or deletes the looked-up id. -/
theorem get_session_shape (store : ImportSessionStore) (sid : Nat) (uid : String)
    (now : Int) :
    (get_session store sid uid now).1 = store ∨
    (get_session store sid uid now).1 = delete_session store sid := by
  unfold get_session
  cases dictGet sid store.sessions with
  | none => exact Or.inl rfl
  | some session =>
    by_cases h1 : session.user_id ≠ uid
    · simp [h1]
    · by_cases h2 : now - session.created_at > SESSION_TTL_MINUTES * 60 <;>
        simp [h1, h2]

/-- When get_session produces a session, the store is unchanged and the
session is the live owned one. -/
theorem get_session_pair_some {store s1 : ImportSessionStore} {sid : Nat}
    {uid : String} {now : Int} {session : ImportSession}
    (h : get_session store sid uid now = (s1, some session)) :
    s1 = store ∧ dictGet sid store.sessions = some session ∧
    session.user_id = uid ∧
    now - session.created_at ≤ SESSION_TTL_MINUTES * 60 := by
  unfold get_session at h
  cases hd : dictGet sid store.sessions with
  | none => rw [hd] at h; simp at h
  | some sess =>
    rw [hd] at h
    dsimp only at h
    split_ifs at h with h1 h2
    · simp at h
    · simp at h
    · rw [Prod.mk.injEq] at h
      obtain ⟨ha, hb⟩ := h
      refine ⟨ha.symm, hb, ?_, ?_⟩
      · injection hb with hb1
        rw [← hb1]
        simpa using h1
      · injection hb with hb1
        rw [← hb1]
        omega

/-- A session id absent from the map is not found by get, with any caller
identity and at any time. -/
theorem get_session_none_of_dict {store : ImportSessionStore} {sid : Nat}
    (uid : String) (now : Int) (h : dictGet sid store.sessions = none) :
    (get_session store sid uid now).2 = none := by
  simp [get_session, h]

/-- A dead id (absent and below the counter) stays dead under
delete_session. -/
theorem delete_session_dead {sid : Nat} {store : ImportSessionStore} (k : Nat)
    (h : dictGet sid store.sessions = none) :
    dictGet sid (delete_session store k).sessions = none := by
  unfold delete_session
  cases dictGet k store.sessions with
  | none => exact h
  | some session =>
    by_cases hk : sid = k
    · subst hk
      exact dictGet_erase_self _ _
    · rw [dictGet_erase_ne hk]
      exact h

theorem delete_session_next_id (store : ImportSessionStore) (k : Nat) :
    (delete_session store k).next_id = store.next_id := by
  unfold delete_session
  cases dictGet k store.sessions <;> rfl

/-- StoreWF is preserved by delete_session. -/
theorem delete_session_wf {store : ImportSessionStore} (k : Nat)
    (hwf : StoreWF store) : StoreWF (delete_session store k) := by
  obtain ⟨hns, hnu, hback, hbs, hbu⟩ := hwf
  unfold delete_session
  cases hd : dictGet k store.sessions with
  | none => exact ⟨hns, hnu, hback, hbs, hbu⟩
  | some session =>
    refine ⟨nodup_keys_erase _ hns, nodup_keys_erase _ hnu, ?_, ?_, ?_⟩
    · intro p hp
      obtain ⟨hpmem, hpk⟩ := mem_dictErase.mp hp
      have hbp := hback p hpmem
      have hne : p.2.user_id ≠ session.user_id := by
        intro heq
        have hks := hback (k, session) (dictGet_mem hd)
        rw [heq] at hbp
        rw [hbp] at hks
        exact hpk (by injection hks)
      rw [dictGet_erase_ne hne]
      exact hbp
    · intro p hp
      exact hbs p (mem_dictErase.mp hp).1
    · intro q hq
      exact hbu q (mem_dictErase.mp hq).1

/-- StoreWF is preserved by the store side effect of get_session. -/
theorem get_session_wf {store : ImportSessionStore} (sid : Nat) (uid : String)
    (now : Int) (hwf : StoreWF store) :
    StoreWF (get_session store sid uid now).1 := by
  rcases get_session_shape store sid uid now with h | h
  · rw [h]; exact hwf
  · rw [h]; exact delete_session_wf sid hwf

/-- StoreWF is preserved by create_session, and the bound on existing ids
makes the generated id fresh. -/
theorem create_session_wf {store : ImportSessionStore} (uid : String)
    (movies : List MatchedMovieItem) (te mf tv ar now : Int)
    (hwf : StoreWF store) :
    StoreWF (create_session store uid movies te mf tv ar now).2 := by
  obtain ⟨hns, hnu, hback, hbs, hbu⟩ := hwf
  rw [create_session_eq]
  cases hold : dictGet uid store.user_sessions with
  | none =>
    dsimp only
    refine ⟨nodup_keys_insert _ _ hns, nodup_keys_insert _ _ hnu, ?_, ?_, ?_⟩
    · intro p hp
      rcases mem_dictInsert.mp hp with hp1 | hp1
      · obtain ⟨hpmem, hpk⟩ := mem_dictErase.mp hp1
        have hbp := hback p hpmem
        have hne : p.2.user_id ≠ uid := by
          intro heq
          rw [heq] at hbp
          rw [hold] at hbp
          exact Option.noConfusion hbp
        rw [dictGet_insert_ne hne]
        exact hbp
      · subst hp1
        exact dictGet_insert_self _ _ _
    · intro p hp
      rcases mem_dictInsert.mp hp with hp1 | hp1
      · have := hbs p (mem_dictErase.mp hp1).1
        dsimp only
        omega
      · subst hp1
        simp
    · intro q hq
      rcases mem_dictInsert.mp hq with hq1 | hq1
      · have := hbu q (mem_dictErase.mp hq1).1
        dsimp only
        omega
      · subst hq1
        simp
  | some old_sid =>
    dsimp only
    refine ⟨nodup_keys_insert _ _ (nodup_keys_erase _ hns),
      nodup_keys_insert _ _ hnu, ?_, ?_, ?_⟩
    · intro p hp
      rcases mem_dictInsert.mp hp with hp1 | hp1
      · obtain ⟨hp2, hpk⟩ := mem_dictErase.mp hp1
        obtain ⟨hpmem, hpold⟩ := mem_dictErase.mp hp2
        have hbp := hback p hpmem
        have hne : p.2.user_id ≠ uid := by
          intro heq
          rw [heq] at hbp
          rw [hold] at hbp
          refine hpold ?_
          injection hbp with hv
          exact hv.symm
        rw [dictGet_insert_ne hne]
        exact hbp
      · subst hp1
        exact dictGet_insert_self _ _ _
    · intro p hp
      rcases mem_dictInsert.mp hp with hp1 | hp1
      · have := hbs p (mem_dictErase.mp (mem_dictErase.mp hp1).1).1
        dsimp only
        omega
      · subst hp1
        simp
    · intro q hq
      rcases mem_dictInsert.mp hq with hq1 | hq1
      · have := hbu q (mem_dictErase.mp hq1).1
        dsimp only
        omega
      · subst hq1
        simp

/-- StoreWF is preserved by update_session. -/
theorem update_session_wf {store : ImportSessionStore} (sid : Nat) (uid : String)
    (updates : List SessionField) (now : Int) (hwf : StoreWF store) :
    StoreWF (update_session store sid uid updates now).1 := by
  unfold update_session
  cases hg : get_session store sid uid now with
  | mk s1 o =>
    cases o with
    | none =>
      have : s1 = (get_session store sid uid now).1 := by rw [hg]
      rw [this] at *
      exact get_session_wf sid uid now hwf
    | some session =>
      obtain ⟨hs1, hdict, howner, hlive⟩ := get_session_pair_some hg
      subst hs1
      obtain ⟨hns, hnu, hback, hbs, hbu⟩ := hwf
      have huid := (whitelist_foldl_preserved session updates).1
      refine ⟨nodup_keys_insert _ _ hns, hnu, ?_, ?_, hbu⟩
      · intro p hp
        rcases mem_dictInsert.mp hp with hp1 | hp1
        · obtain ⟨hpmem, hpk⟩ := mem_dictErase.mp hp1
          exact hback p hpmem
        · subst hp1
          simp only [huid]
          exact hback (sid, session) (dictGet_mem hdict)
      · intro p hp
        rcases mem_dictInsert.mp hp with hp1 | hp1
        · exact hbs p (mem_dictErase.mp hp1).1
        · subst hp1
          exact hbs (sid, session) (dictGet_mem hdict)

/-- StoreWF is preserved by cleanup_expired. -/
theorem cleanup_expired_wf {store : ImportSessionStore} (now : Int)
    (hwf : StoreWF store) : StoreWF (cleanup_expired store now).1 := by
  unfold cleanup_expired
  generalize ((store.sessions.filter _).map _) = ids
  induction ids generalizing store with
  | nil => exact hwf
  | cons i rest ih =>
    exact ih (delete_session_wf i hwf)

/-- StoreWF is preserved by every store operation. -/
theorem apply_op_wf {store : ImportSessionStore} (op : StoreOp)
    (hwf : StoreWF store) : StoreWF (apply_op store op) := by
  cases op with
  | createOp uid movies te mf tv ar now => exact create_session_wf uid movies te mf tv ar now hwf
  | getOp sid uid now => exact get_session_wf sid uid now hwf
  | updateOp sid uid upd now => exact update_session_wf sid uid upd now hwf
  | deleteOp sid => exact delete_session_wf sid hwf
  | cleanupOp now => exact cleanup_expired_wf now hwf

theorem run_ops_wf {store : ImportSessionStore} (ops : List StoreOp)
    (hwf : StoreWF store) : StoreWF (run_ops ops store) := by
  induction ops generalizing store with
  | nil => exact hwf
  | cons op rest ih => exact ih (apply_op_wf op hwf)

/-- A well-formed store never holds two sessions of one owner. -/
theorem owners_unique_of_wf {store : ImportSessionStore} (hwf : StoreWF store) :
    OwnersUnique store := by
  obtain ⟨_, _, hback, _, _⟩ := hwf
  intro p hp q hq heq
  have h1 := hback p hp
  have h2 := hback q hq
  rw [heq] at h1
  rw [h1] at h2
  injection h2

theorem foldl_delete_dead {sid : Nat} :
    ∀ (ids : List Nat) (store : ImportSessionStore),
    dictGet sid store.sessions = none →
    dictGet sid (ids.foldl delete_session store).sessions = none ∧
    (ids.foldl delete_session store).next_id = store.next_id
  | [], store => by intro h; exact ⟨h, rfl⟩
  | k :: rest, store => by
    intro h
    have hstep := foldl_delete_dead rest (delete_session store k)
      (delete_session_dead k h)
    rw [List.foldl_cons]
    refine ⟨hstep.1, ?_⟩
    rw [hstep.2, delete_session_next_id]

/-- A dead session id (absent from the map and below the id counter)
stays dead under every store operation. -/
theorem apply_op_dead {sid : Nat} {store : ImportSessionStore} (op : StoreOp)
    (hdead : dictGet sid store.sessions = none) (hlt : sid < store.next_id) :
    dictGet sid (apply_op store op).sessions = none ∧
    sid < (apply_op store op).next_id := by
  cases op with
  | createOp uid movies te mf tv ar now =>
    dsimp only [apply_op]
    rw [create_session_eq]
    dsimp only
    have hne : sid ≠ store.next_id := by omega
    refine ⟨?_, by omega⟩
    rw [dictGet_insert_ne hne]
    cases hold : dictGet uid store.user_sessions with
    | none => exact hdead
    | some old =>
      by_cases ho : sid = old
      · subst ho
        exact dictGet_erase_self _ _
      · rw [dictGet_erase_ne ho]
        exact hdead
  | getOp sid2 uid now =>
    dsimp only [apply_op]
    rcases get_session_shape store sid2 uid now with h | h
    · rw [h]
      exact ⟨hdead, hlt⟩
    · rw [h]
      refine ⟨delete_session_dead sid2 hdead, ?_⟩
      rw [delete_session_next_id]
      exact hlt
  | updateOp sid2 uid upd now =>
    dsimp only [apply_op]
    unfold update_session
    cases hg : get_session store sid2 uid now with
    | mk s1 o =>
      cases o with
      | none =>
        dsimp only
        have hs1 : s1 = (get_session store sid2 uid now).1 := by rw [hg]
        rcases get_session_shape store sid2 uid now with h | h
        · rw [hs1, h]
          exact ⟨hdead, hlt⟩
        · rw [hs1, h]
          refine ⟨delete_session_dead sid2 hdead, ?_⟩
          rw [delete_session_next_id]
          exact hlt
      | some session =>
        obtain ⟨hs1, hdict, _, _⟩ := get_session_pair_some hg
        subst hs1
        dsimp only
        have hne : sid ≠ sid2 := by
          intro hcontra
          subst hcontra
          rw [hdict] at hdead
          exact Option.noConfusion hdead
        refine ⟨?_, hlt⟩
        rw [dictGet_insert_ne hne]
        exact hdead
  | deleteOp k =>
    dsimp only [apply_op]
    refine ⟨delete_session_dead k hdead, ?_⟩
    rw [delete_session_next_id]
    exact hlt
  | cleanupOp now =>
    dsimp only [apply_op]
    unfold cleanup_expired
    dsimp only
    have := foldl_delete_dead
      ((store.sessions.filter
        (fun p => decide (now - p.2.created_at > SESSION_TTL_MINUTES * 60))).map
        (fun p => p.1)) store hdead
    refine ⟨this.1, ?_⟩
    rw [this.2]
    exact hlt

theorem run_ops_dead {sid : Nat} :
    ∀ (ops : List StoreOp) (store : ImportSessionStore),
    dictGet sid store.sessions = none → sid < store.next_id →
    dictGet sid (run_ops ops store).sessions = none ∧
    sid < (run_ops ops store).next_id
  | [], store => by
    intro h1 h2
    exact ⟨h1, h2⟩
  | op :: rest, store => by
    intro h1 h2
    have hstep := apply_op_dead op h1 h2
    exact run_ops_dead rest (apply_op store op) hstep.1 hstep.2

/-- C6: on a well-formed store, creating a second session for an owner
permanently retires the previous session id: after the create, the old id
resolves to nothing under any further sequence of store operations, get on
it returns not-found for every caller identity at every time, and at every
observable point no two sessions of one owner coexist. -/
theorem C6_replacement_invariant (store : ImportSessionStore) (uid : String)
    (movies : List MatchedMovieItem) (te mf tv ar now : Int) (old_sid : Nat)
    (hwf : StoreWF store)
    (hold : dictGet uid store.user_sessions = some old_sid) :
    (∀ ops : List StoreOp,
      dictGet old_sid
        (run_ops ops (create_session store uid movies te mf tv ar now).2).sessions
        = none) ∧
    (∀ (ops : List StoreOp) (uid2 : String) (t : Int),
      (get_session
        (run_ops ops (create_session store uid movies te mf tv ar now).2)
        old_sid uid2 t).2 = none) ∧
    (∀ ops : List StoreOp,
      OwnersUnique
        (run_ops ops (create_session store uid movies te mf tv ar now).2)) := by
  have hlt : old_sid < store.next_id :=
    hwf.2.2.2.2 (uid, old_sid) (dictGet_mem hold)
  have hdead1 :
      dictGet old_sid
        (create_session store uid movies te mf tv ar now).2.sessions = none := by
    rw [create_session_eq]
    dsimp only
    rw [hold]
    dsimp only
    have hne : old_sid ≠ store.next_id := by omega
    rw [dictGet_insert_ne hne]
    exact dictGet_erase_self _ _
  have hlt1 :
      old_sid < (create_session store uid movies te mf tv ar now).2.next_id := by
    rw [create_session_eq]
    dsimp only
    omega
  have hrun := fun ops => run_ops_dead ops
    (create_session store uid movies te mf tv ar now).2 hdead1 hlt1
  refine ⟨fun ops => (hrun ops).1,
    fun ops uid2 t => get_session_none_of_dict uid2 t (hrun ops).1,
    fun ops => owners_unique_of_wf
      (run_ops_wf ops (create_session_wf uid movies te mf tv ar now hwf))⟩

/-- Witness for C6 at the concrete one-session store: creating a second
session for user "u" retires session id 0. -/
theorem C6_witness :
    (∀ ops : List StoreOp,
      dictGet 0
        (run_ops ops (create_session storeAdded "u" [] 0 0 0 0 5).2).sessions
        = none) ∧
    (∀ (ops : List StoreOp) (uid2 : String) (t : Int),
      (get_session (run_ops ops (create_session storeAdded "u" [] 0 0 0 0 5).2)
        0 uid2 t).2 = none) ∧
    (∀ ops : List StoreOp,
      OwnersUnique (run_ops ops (create_session storeAdded "u" [] 0 0 0 0 5).2)) :=
  C6_replacement_invariant storeAdded "u" [] 0 0 0 0 5 0
    (by
      refine ⟨by decide, by decide, ?_, by decide, by decide⟩
      intro p hp
      rcases List.mem_singleton.mp hp with rfl
      decide)
    (by decide)

theorem getD_set_self {α : Type} :
    ∀ (l : List α) (n : Nat) (a d : α), n < l.length →
    (l.set n a).getD n d = a
  | [], n, a, d => by intro h; simp at h
  | x :: t, 0, a, d => by intro _; rfl
  | x :: t, n + 1, a, d => by
    intro h
    simp only [List.length_cons, Nat.add_lt_add_iff_right] at h
    simpa [List.set, List.getD] using getD_set_self t n a d h

theorem find?_append_none {α : Type} (p : α → Bool) :
    ∀ {l1 : List α} (l2 : List α), l1.find? p = none →
    (l1 ++ l2).find? p = l2.find? p
  | [], l2 => by intro _; rfl
  | x :: t, l2 => by
    intro h
    cases hx : p x with
    | true => simp [List.find?_cons, hx] at h
    | false =>
      simp only [List.find?_cons, hx] at h
      simpa [List.find?_cons, hx] using find?_append_none p l2 h

/-- Replacing the found movie by one with the same TMDB id (and its id)
keeps it the first match, when movie primary keys are distinct. -/
theorem find?_map_replace {t : Int} {movie movie1 : Movie}
    (ht : movie1.tmdb_id = movie.tmdb_id) :
    ∀ {l : List Movie}, (l.map (fun m => m.id)).Nodup →
    l.find? (fun m => decide (m.tmdb_id = t)) = some movie →
    (l.map (fun m => if m.id = movie.id then movie1 else m)).find?
      (fun m => decide (m.tmdb_id = t)) = some movie1
  | [] => by intro _ hf; simp at hf
  | a :: rest => by
    intro hnd hf
    simp only [List.map_cons, List.nodup_cons] at hnd
    by_cases hp : a.tmdb_id = t
    · have ha : a = movie := by
        simpa [List.find?_cons, hp] using hf
      subst ha
      simp [List.find?_cons, ht, hp]
    · have hf2 : rest.find? (fun m => decide (m.tmdb_id = t)) = some movie := by
        simpa [List.find?_cons, hp] using hf
      have hmem : movie ∈ rest := List.mem_of_find?_eq_some hf2
      have hne : a.id ≠ movie.id := by
        intro heq
        exact hnd.1 (heq ▸ List.mem_map.mpr ⟨movie, hmem, rfl⟩)
      rw [List.map_cons, if_neg hne]
      have hrec := find?_map_replace ht hnd.2 hf2
      simpa [List.find?_cons, hp] using hrec

/-- The metadata backfill never changes the movie identity. -/
theorem backfill_movie_id (movie : Movie) (tm : TMDBMatchResult)
    (details : Except Unit (Option Int)) :
    (backfill_movie movie tm details).id = movie.id ∧
    (backfill_movie movie tm details).tmdb_id = movie.tmdb_id := by
  unfold backfill_movie
  have hgen : ∀ m, (backfill_genre m tm).id = m.id ∧
      (backfill_genre m tm).tmdb_id = m.tmdb_id := by
    intro m
    unfold backfill_genre
    split_ifs <;> exact ⟨rfl, rfl⟩
  have hva : ∀ m, (backfill_vote_average m tm).id = m.id ∧
      (backfill_vote_average m tm).tmdb_id = m.tmdb_id := by
    intro m
    unfold backfill_vote_average
    split_ifs <;> exact ⟨rfl, rfl⟩
  have hvc : ∀ m, (backfill_vote_count m tm).id = m.id ∧
      (backfill_vote_count m tm).tmdb_id = m.tmdb_id := by
    intro m
    unfold backfill_vote_count
    split_ifs <;> exact ⟨rfl, rfl⟩
  have hrd : ∀ m, (backfill_release_date m tm).id = m.id ∧
      (backfill_release_date m tm).tmdb_id = m.tmdb_id := by
    intro m
    unfold backfill_release_date
    split_ifs <;> exact ⟨rfl, rfl⟩
  have hlang : ∀ m, (backfill_language m tm).id = m.id ∧
      (backfill_language m tm).tmdb_id = m.tmdb_id := by
    intro m
    unfold backfill_language
    split_ifs <;> exact ⟨rfl, rfl⟩
  have hrt : ∀ m, (backfill_runtime m details).id = m.id ∧
      (backfill_runtime m details).tmdb_id = m.tmdb_id := by
    intro m
    unfold backfill_runtime
    cases details with
    | ok r =>
      dsimp only
      split_ifs <;> exact ⟨rfl, rfl⟩
    | error e =>
      dsimp only
      split_ifs <;> exact ⟨rfl, rfl⟩
  constructor
  · rw [(hrt _).1, (hlang _).1, (hrd _).1, (hvc _).1, (hva _).1, (hgen _).1]
  · rw [(hrt _).2, (hlang _).2, (hrd _).2, (hvc _).2, (hva _).2, (hgen _).2]

/-- With the (user, movie) uniqueness constraint, at most one stored
ranking matches a key. -/
theorem count_le_one_of_pairwise (uid : String) (mid : Nat) :
    ∀ l : List Ranking,
    l.Pairwise (fun r1 r2 => ¬(r1.user_id = r2.user_id ∧ r1.movie_id = r2.movie_id)) →
    (l.filter (fun r => decide (r.user_id = uid ∧ r.movie_id = mid))).length ≤ 1
  | [] => by intro _; simp
  | r :: rest => by
    intro hp
    rw [List.pairwise_cons] at hp
    rw [List.filter_cons]
    by_cases hr : r.user_id = uid ∧ r.movie_id = mid
    · have hnil : rest.filter
          (fun x => decide (x.user_id = uid ∧ x.movie_id = mid)) = [] := by
        rw [List.filter_eq_nil_iff]
        intro b hb hbp
        rw [decide_eq_true_eq] at hbp
        exact hp.1 b hb ⟨hr.1.trans hbp.1.symm, hr.2.trans hbp.2.symm⟩
      rw [if_pos (decide_eq_true hr), hnil]
      simp
    · rw [if_neg (by simpa using hr)]
      exact count_le_one_of_pairwise uid mid rest hp.2

/-- Replacing every ranking with the key by one updated ranking with the
same key keeps the per-key count. -/
theorem count_map_replace (uid : String) (mid : Nat) (updated : Ranking)
    (hu : updated.user_id = uid) (hm : updated.movie_id = mid) :
    ∀ l : List Ranking,
    ((l.map (fun r => if r.user_id = uid ∧ r.movie_id = mid then updated else r)).filter
      (fun r => decide (r.user_id = uid ∧ r.movie_id = mid))).length =
    (l.filter (fun r => decide (r.user_id = uid ∧ r.movie_id = mid))).length
  | [] => by simp
  | r :: rest => by
    have hrec := count_map_replace uid mid updated hu hm rest
    rw [List.map_cons, List.filter_cons, List.filter_cons]
    by_cases hr : r.user_id = uid ∧ r.movie_id = mid
    · rw [if_pos hr, if_pos (decide_eq_true hr),
        if_pos (decide_eq_true ⟨hu, hm⟩)]
      simp only [List.length_cons, hrec]
    · rw [if_neg hr, if_neg (by simpa using hr), if_neg (by simpa using hr)]
      exact hrec

/-- Specification of the get-or-create block: the resolved movie carries
the requested TMDB id, it is the movie add_import_movie resolves for that
id in the resulting database, and the rankings and their invariant are
untouched. -/
theorem get_or_create_movie_spec (db : Database) (tm : TMDBMatchResult)
    (details : Except Unit (Option Int)) (hdb : DbWF db) :
    (get_or_create_movie db tm details).2.tmdb_id = tm.tmdb_id ∧
    movieIdForTmdb (get_or_create_movie db tm details).1 tm.tmdb_id =
      some (get_or_create_movie db tm details).2.id ∧
    (get_or_create_movie db tm details).1.rankings = db.rankings := by
  unfold get_or_create_movie
  cases hf : db.movies.find? (fun m => decide (m.tmdb_id = tm.tmdb_id)) with
  | none =>
    dsimp only
    refine ⟨rfl, ?_, rfl⟩
    unfold movieIdForTmdb
    dsimp only
    rw [find?_append_none _ _ hf]
    simp [List.find?_cons]
  | some movie =>
    dsimp only
    have hb := backfill_movie_id movie tm details
    have hpm : movie.tmdb_id = tm.tmdb_id := by
      have := List.find?_some hf
      rwa [decide_eq_true_eq] at this
    refine ⟨hb.2.trans hpm, ?_, rfl⟩
    unfold movieIdForTmdb
    dsimp only
    rw [find?_map_replace hb.2 hdb.1 hf]
    rfl

/-- Specification of the rating upsert: the resulting ranking has the
requested key and afterwards exactly one ranking with that key is
stored; movies and the id counter are untouched. -/
theorem upsert_ranking_spec (db : Database) (uid : String) (mid : Nat)
    (rating rated_at : Int)
    (hpair : db.rankings.Pairwise
      (fun r1 r2 => ¬(r1.user_id = r2.user_id ∧ r1.movie_id = r2.movie_id))) :
    (upsert_ranking db uid mid rating rated_at).2.user_id = uid ∧
    (upsert_ranking db uid mid rating rated_at).2.movie_id = mid ∧
    countRatings (upsert_ranking db uid mid rating rated_at).1 uid mid = 1 ∧
    (upsert_ranking db uid mid rating rated_at).1.movies = db.movies ∧
    (upsert_ranking db uid mid rating rated_at).1.next_movie_id =
      db.next_movie_id := by
  unfold upsert_ranking
  cases hf : db.rankings.find? (fun r =>
      decide (r.user_id = uid ∧ r.movie_id = mid)) with
  | none =>
    dsimp only
    refine ⟨rfl, rfl, ?_, rfl, rfl⟩
    unfold countRatings
    dsimp only
    rw [List.filter_append]
    have hnil : db.rankings.filter
        (fun r => decide (r.user_id = uid ∧ r.movie_id = mid)) = [] := by
      rw [List.filter_eq_nil_iff]
      intro b hb hbp
      exact absurd hbp (by simpa using List.find?_eq_none.mp hf b hb)
    rw [hnil]
    simp [List.filter_cons]
  | some existing =>
    dsimp only
    have hkey : existing.user_id = uid ∧ existing.movie_id = mid := by
      have := List.find?_some hf
      rwa [decide_eq_true_eq] at this
    refine ⟨hkey.1, hkey.2, ?_, rfl, rfl⟩
    unfold countRatings
    dsimp only
    rw [count_map_replace uid mid
      { existing with rating := rating, rated_at := rated_at }
      hkey.1 hkey.2 db.rankings]
    have hle := count_le_one_of_pairwise uid mid db.rankings hpair
    have hge : 1 ≤ (db.rankings.filter
        (fun r => decide (r.user_id = uid ∧ r.movie_id = mid))).length := by
      have hmem : existing ∈ db.rankings.filter
          (fun r => decide (r.user_id = uid ∧ r.movie_id = mid)) := by
        rw [List.mem_filter]
        exact ⟨List.mem_of_find?_eq_some hf, by simp [hkey.1, hkey.2]⟩
      exact List.length_pos.mpr (List.ne_nil_of_mem hmem)
    omega

/-- An add against a live owned session whose item is no longer pending is
rejected with the conflict error and changes neither the store nor the
database. -/
theorem add_rejected {store : ImportSessionStore} {db : Database} {sid : Nat}
    {uid : String} {now : Int} {index : Int} {session : ImportSession}
    (req : ImportMovieAddRequest) (details : Except Unit (Option Int))
    (hdict : dictGet sid store.sessions = some session)
    (howner : session.user_id = uid)
    (hlive : now - session.created_at ≤ SESSION_TTL_MINUTES * 60)
    (hge : 0 ≤ index) (hlt : index.toNat < session.movies.length)
    (hstat : (session.movies.getD index.toNat default).status ≠ "pending") :
    add_import_movie store db sid index req uid now details =
      (store, db, .error (.badRequest "Movie has already been processed")) := by
  have hb : ¬(index < 0 ∨ (session.movies.length : Int) ≤ index) := by
    push_neg
    omega
  unfold add_import_movie
  rw [get_session_live hdict howner hlive]
  try dsimp only
  rw [if_neg hb]
  try dsimp only
  rw [if_pos hstat]

/-- Rejected repeated adds leave the (store, database) pair fixed. -/
theorem add_many_fixpoint {session_id : Nat} {index : Int} {uid : String}
    {store : ImportSessionStore} {db : Database} (liveP : Int → Prop)
    (hrej : ∀ c : AddCall, liveP c.now →
      add_import_movie store db session_id index c.req uid c.now c.details =
        (store, db, .error (.badRequest "Movie has already been processed"))) :
    ∀ calls : List AddCall, (∀ c ∈ calls, liveP c.now) →
    add_many session_id index uid calls (store, db) = (store, db)
  | [] => by intro _; rfl
  | c :: rest => by
    intro h
    unfold add_many
    rw [List.foldl_cons]
    dsimp only
    rw [hrej c (h c (List.mem_cons_self c rest))]
    have hrest := add_many_fixpoint liveP hrej rest
      (fun x hx => h x (List.mem_cons_of_mem c hx))
    unfold add_many at hrest
    exact hrest

/-- C1: on a live owned session whose indexed item is pending with a
resolved match, Add succeeds; afterwards the item status is added and the
added counter is bumped, exactly one rating exists in the datastore for
the owner and the movie resolved for the match catalog id, every further
Add on the same index while the session lives is rejected with the
already-processed conflict without changing store or database, and any
number of such rejected Adds still leaves exactly that state, hence
exactly one rating. -/
theorem C1_add_idempotent (store : ImportSessionStore) (db : Database)
    (sid : Nat) (uid : String) (now : Int) (index : Int)
    (session : ImportSession) (req : ImportMovieAddRequest)
    (details : Except Unit (Option Int)) (tm : TMDBMatchResult)
    (hdict : dictGet sid store.sessions = some session)
    (howner : session.user_id = uid)
    (hlive : now - session.created_at ≤ SESSION_TTL_MINUTES * 60)
    (hge : 0 ≤ index) (hlt : index.toNat < session.movies.length)
    (hstat : (session.movies.getD index.toNat default).status = "pending")
    (hmatch : (session.movies.getD index.toNat default).tmdb_match = some tm)
    (hdb : DbWF db) :
    (∃ rk : Ranking,
      (add_import_movie store db sid index req uid now details).2.2 = .ok rk ∧
      rk.user_id = uid ∧
      movieIdForTmdb (add_import_movie store db sid index req uid now details).2.1
        tm.tmdb_id = some rk.movie_id ∧
      countRatings (add_import_movie store db sid index req uid now details).2.1
        uid rk.movie_id = 1) ∧
    (∃ session1 : ImportSession,
      dictGet sid
          (add_import_movie store db sid index req uid now details).1.sessions =
        some session1 ∧
      (session1.movies.getD index.toNat default).status = "added" ∧
      session1.added_count = session.added_count + 1 ∧
      session1.created_at = session.created_at) ∧
    (∀ c : AddCall, c.now - session.created_at ≤ SESSION_TTL_MINUTES * 60 →
      add_import_movie (add_import_movie store db sid index req uid now details).1
          (add_import_movie store db sid index req uid now details).2.1
          sid index c.req uid c.now c.details =
        ((add_import_movie store db sid index req uid now details).1,
         (add_import_movie store db sid index req uid now details).2.1,
         .error (.badRequest "Movie has already been processed"))) ∧
    (∀ calls : List AddCall,
      (∀ c ∈ calls, c.now - session.created_at ≤ SESSION_TTL_MINUTES * 60) →
      add_many sid index uid calls
          ((add_import_movie store db sid index req uid now details).1,
           (add_import_movie store db sid index req uid now details).2.1) =
        ((add_import_movie store db sid index req uid now details).1,
         (add_import_movie store db sid index req uid now details).2.1)) := by
  have hb : ¬(index < 0 ∨ (session.movies.length : Int) ≤ index) := by
    push_neg
    omega
  have hadd : add_import_movie store db sid index req uid now details =
      ({ store with
          sessions := dictInsert sid
            { session with
                movies := session.movies.set index.toNat
                  { session.movies.getD index.toNat default with
                      status := "added" },
                added_count := session.added_count + 1,
                current_index := index + 1 }
            store.sessions },
       (upsert_ranking (get_or_create_movie db tm details).1 uid
          (get_or_create_movie db tm details).2.id req.rating
          (resolve_rated_at req
            (session.movies.getD index.toNat default).parsed now)).1,
       .ok (upsert_ranking (get_or_create_movie db tm details).1 uid
          (get_or_create_movie db tm details).2.id req.rating
          (resolve_rated_at req
            (session.movies.getD index.toNat default).parsed now)).2) := by
    unfold add_import_movie
    rw [get_session_live hdict howner hlive]
    try dsimp only
    rw [if_neg hb]
    try dsimp only
    rw [if_neg (fun hcon => hcon hstat)]
    rw [hmatch]
  obtain ⟨hgoc_t, hgoc_mid, hgoc_rank⟩ := get_or_create_movie_spec db tm details hdb
  have hpair1 : (get_or_create_movie db tm details).1.rankings.Pairwise
      (fun r1 r2 => ¬(r1.user_id = r2.user_id ∧ r1.movie_id = r2.movie_id)) := by
    rw [hgoc_rank]
    exact hdb.2
  obtain ⟨hu, hm, hcount, hmov, hnext⟩ :=
    upsert_ranking_spec (get_or_create_movie db tm details).1 uid
      (get_or_create_movie db tm details).2.id req.rating
      (resolve_rated_at req
        (session.movies.getD index.toNat default).parsed now) hpair1
  have hitem : ((session.movies.set index.toNat
      { session.movies.getD index.toNat default with
          status := "added" }).getD index.toNat default) =
      { session.movies.getD index.toNat default with status := "added" } :=
    getD_set_self _ _ _ _ hlt
  have hrej : ∀ c : AddCall,
      c.now - session.created_at ≤ SESSION_TTL_MINUTES * 60 →
      add_import_movie (add_import_movie store db sid index req uid now details).1
          (add_import_movie store db sid index req uid now details).2.1
          sid index c.req uid c.now c.details =
        ((add_import_movie store db sid index req uid now details).1,
         (add_import_movie store db sid index req uid now details).2.1,
         .error (.badRequest "Movie has already been processed")) := by
    intro c hc
    rw [hadd]
    dsimp only
    refine add_rejected c.req c.details (dictGet_insert_self _ _ _) howner hc hge
      ?_ ?_
    · rw [List.length_set]
      exact hlt
    · rw [hitem]
      simp
  refine ⟨?_, ?_, hrej, ?_⟩
  · refine ⟨(upsert_ranking (get_or_create_movie db tm details).1 uid
        (get_or_create_movie db tm details).2.id req.rating
        (resolve_rated_at req
          (session.movies.getD index.toNat default).parsed now)).2,
      ?_, hu, ?_, ?_⟩
    · rw [hadd]
    · rw [hadd]
      dsimp only
      have hsame : movieIdForTmdb
          (upsert_ranking (get_or_create_movie db tm details).1 uid
            (get_or_create_movie db tm details).2.id req.rating
            (resolve_rated_at req
              (session.movies.getD index.toNat default).parsed now)).1
          tm.tmdb_id =
          movieIdForTmdb (get_or_create_movie db tm details).1 tm.tmdb_id := by
        unfold movieIdForTmdb
        rw [hmov]
      rw [hsame, hgoc_mid, hm]
    · rw [hadd]
      dsimp only
      rw [hm]
      exact hcount
  · refine ⟨{ session with
        movies := session.movies.set index.toNat
          { session.movies.getD index.toNat default with status := "added" },
        added_count := session.added_count + 1,
        current_index := index + 1 }, ?_, ?_, rfl, rfl⟩
    · rw [hadd]
      exact dictGet_insert_self _ _ _
    · dsimp only
      rw [hitem]
  · intro calls hcalls
    exact add_many_fixpoint
      (fun t => t - session.created_at ≤ SESSION_TTL_MINUTES * 60) hrej calls
      hcalls

/-- Witness for C1 at the concrete pending item, empty datastore and a
details fetch returning runtime 90. -/
theorem C1_witness :
    (∃ rk : Ranking,
      (add_import_movie storePending dbEmpty 3 0 reqAdd "w" 7
        (Except.ok (some 90))).2.2 = .ok rk ∧
      rk.user_id = "w" ∧
      movieIdForTmdb (add_import_movie storePending dbEmpty 3 0 reqAdd "w" 7
        (Except.ok (some 90))).2.1 tmPending.tmdb_id = some rk.movie_id ∧
      countRatings (add_import_movie storePending dbEmpty 3 0 reqAdd "w" 7
        (Except.ok (some 90))).2.1 "w" rk.movie_id = 1) ∧
    (∃ session1 : ImportSession,
      dictGet 3 (add_import_movie storePending dbEmpty 3 0 reqAdd "w" 7
          (Except.ok (some 90))).1.sessions = some session1 ∧
      (session1.movies.getD (0 : Int).toNat default).status = "added" ∧
      session1.added_count = sessPending.added_count + 1 ∧
      session1.created_at = sessPending.created_at) ∧
    (∀ c : AddCall, c.now - sessPending.created_at ≤ SESSION_TTL_MINUTES * 60 →
      add_import_movie (add_import_movie storePending dbEmpty 3 0 reqAdd "w" 7
          (Except.ok (some 90))).1
        (add_import_movie storePending dbEmpty 3 0 reqAdd "w" 7
          (Except.ok (some 90))).2.1 3 0 c.req "w" c.now c.details =
        ((add_import_movie storePending dbEmpty 3 0 reqAdd "w" 7
          (Except.ok (some 90))).1,
         (add_import_movie storePending dbEmpty 3 0 reqAdd "w" 7
          (Except.ok (some 90))).2.1,
         .error (.badRequest "Movie has already been processed"))) ∧
    (∀ calls : List AddCall,
      (∀ c ∈ calls, c.now - sessPending.created_at ≤ SESSION_TTL_MINUTES * 60) →
      add_many 3 0 "w" calls
        ((add_import_movie storePending dbEmpty 3 0 reqAdd "w" 7
          (Except.ok (some 90))).1,
         (add_import_movie storePending dbEmpty 3 0 reqAdd "w" 7
          (Except.ok (some 90))).2.1) =
        ((add_import_movie storePending dbEmpty 3 0 reqAdd "w" 7
          (Except.ok (some 90))).1,
         (add_import_movie storePending dbEmpty 3 0 reqAdd "w" 7
          (Except.ok (some 90))).2.1)) :=
  C1_add_idempotent storePending dbEmpty 3 "w" 7 0 sessPending reqAdd
    (Except.ok (some 90)) tmPending (by decide) (by decide) (by decide)
    (by decide) (by decide) (by decide) (by decide)
    ⟨by simp [dbEmpty], List.Pairwise.nil⟩

end MovieRanking
